import Mathlib

/-!
Verification of the liturgical-calendar rule engine of the twice-daily
application (TypeScript sources under src/engine, src/utils and the psalter
and lectionary modules).

Civil dates are embedded as triples (year, month, day) with the month
0-indexed exactly as in the JavaScript Date API used by the source
(0 = January, 11 = December).  JavaScript millisecond arithmetic on local
midnights (daysBetween, dayOfYear) is embedded through a rata-die day
count, and Date normalisation (setDate with out-of-range day values) is
embedded as iterated calendar successor / predecessor steps.
-/

namespace TwiceDaily

/-- Civil date, mirroring the JavaScript Date triple used by the source:
month is 0-indexed (0 = January), day is 1-based. -/
structure Date where
  year : Nat
  month : Nat
  day : Nat
  deriving DecidableEq, Repr

/-- Gregorian leap-year test, as in the source's
`(year % 4 === 0 && year % 100 !== 0) || year % 400 === 0`. -/
def isLeapYear (y : Nat) : Bool :=
  (y % 4 == 0 && y % 100 != 0) || y % 400 == 0

/-- Number of days in a month (month 0-indexed), matching the JavaScript
calendar; February depends on the leap year. -/
def daysInMonth (y m : Nat) : Nat :=
  match m with
  | 0 => 31 | 1 => if isLeapYear y then 29 else 28
  | 2 => 31 | 3 => 30 | 4 => 31 | 5 => 30 | 6 => 31
  | 7 => 31 | 8 => 30 | 9 => 31 | 10 => 30 | _ => 31

/-- A date is valid when its month is in range and its day fits the month. -/
def Valid (d : Date) : Prop :=
  d.month ≤ 11 ∧ 1 ≤ d.day ∧ d.day ≤ daysInMonth d.year d.month

instance (d : Date) : Decidable (Valid d) := by
  unfold Valid; infer_instance

/-- Days in a common year strictly before month `m` (0-indexed). -/
def daysBeforeMonth (m : Nat) : Nat :=
  match m with
  | 0 => 0 | 1 => 31 | 2 => 59 | 3 => 90 | 4 => 120 | 5 => 151
  | 6 => 181 | 7 => 212 | 8 => 243 | 9 => 273 | 10 => 304 | _ => 334

/-- Ordinal day within the year (1 = Jan 1), accounting for leap years. -/
def ordinalInYear (d : Date) : Nat :=
  daysBeforeMonth d.month + d.day +
    (if isLeapYear d.year && 2 ≤ d.month then 1 else 0)

/-- Days strictly before year `y` since the proleptic Gregorian epoch
(day 1 = January 1 of year 1). -/
def daysBeforeYear (y : Nat) : Nat :=
  365 * (y - 1) + (y - 1) / 4 - (y - 1) / 100 + (y - 1) / 400

/-- Rata-die day number of a date: Jan 1 of year 1 has number 1. -/
def rd (d : Date) : Nat :=
  daysBeforeYear d.year + ordinalInYear d

/-- Day of week in the JavaScript convention (0 = Sunday, ..., 6 = Saturday).
Rata die 1 (0001-01-01) is a Monday in the proleptic Gregorian calendar. -/
def getDay (d : Date) : Nat := rd d % 7

/-- Calendar successor of a date (the normalisation JavaScript's
`setDate(getDate() + 1)` performs on a valid date). -/
def succDay (d : Date) : Date :=
  if d.day < daysInMonth d.year d.month then ⟨d.year, d.month, d.day + 1⟩
  else if d.month < 11 then ⟨d.year, d.month + 1, 1⟩
  else ⟨d.year + 1, 0, 1⟩

/-- Calendar predecessor of a date (JavaScript `setDate(getDate() - 1)`). -/
def predDay (d : Date) : Date :=
  if 1 < d.day then ⟨d.year, d.month, d.day - 1⟩
  else if 0 < d.month then ⟨d.year, d.month - 1, daysInMonth d.year (d.month - 1)⟩
  else ⟨d.year - 1, 11, 31⟩

/-- Source `addDays(date, days)`: shift a date by a signed number of days,
with the JavaScript Date normalisation embedded as iterated calendar steps. -/
def addDays (d : Date) (n : Int) : Date :=
  if 0 ≤ n then succDay^[n.toNat] d else predDay^[(-n).toNat] d

/-- Source `daysBetween(a, b)` in calendar.ts: signed number of days from
`a` to `b`, computed there from UTC midnights in milliseconds; on the
calendar this is the rata-die difference. -/
def daysBetween (a b : Date) : Int := (rd b : Int) - (rd a : Int)

/-- Source `isDateInRange(date, start, end)`: inclusive range test. -/
def isDateInRange (date start stop : Date) : Bool :=
  0 ≤ daysBetween start date && 0 ≤ daysBetween date stop

/-- Source `isSameDay(a, b)`: component-wise equality of the triples. -/
def isSameDay (a b : Date) : Bool :=
  a.year == b.year && a.month == b.month && a.day == b.day

/-- Source `nextSundayOnOrAfter(date)`. -/
def nextSundayOnOrAfter (d : Date) : Date :=
  let dayOfWeek := getDay d
  if dayOfWeek = 0 then d else addDays d ((7 : Int) - dayOfWeek)

/-! ## Moveable Feast Calculator (src/engine/easter.ts) -/

/-- The common numerator `h + l - 7 * m + 114` of the Anonymous Gregorian
(Meeus/Jones/Butcher) algorithm in `computeEaster`, from which the source
derives both `month` and `day`.  All intermediate values are nonnegative,
so the Nat subtractions below agree with the JavaScript integer
arithmetic. -/
def easterX (year : Nat) : Nat :=
  let a := year % 19
  let b := year / 100
  let c := year % 100
  let d := b / 4
  let e := b % 4
  let f := (b + 8) / 25
  let g := (b - f + 1) / 3
  let h := (19 * a + b - d - g + 15) % 30
  let i := c / 4
  let k := c % 4
  let l := (32 + 2 * e + 2 * i - h - k) % 7
  let m := (a + 11 * h + 22 * l) / 451
  h + l - 7 * m + 114

/-- Source `computeEaster(year)`: `month = X / 31`, `day = X % 31 + 1`
for the numerator `X`, and `new Date(year, month - 1, day)` becomes the
triple with 0-indexed month. -/
def computeEaster (year : Nat) : Date :=
  ⟨year, easterX year / 31 - 1, easterX year % 31 + 1⟩

/-- Source `computeAdventSunday(year)`: the Sunday nearest November 30.
`new Date(year, 10, 30 + offset)` normalises day values above 30 into
December, which the second branch writes out explicitly. -/
def computeAdventSunday (year : Nat) : Date :=
  let dayOfWeek := getDay ⟨year, 10, 30⟩
  if dayOfWeek ≤ 3 then ⟨year, 10, 30 - dayOfWeek⟩
  else ⟨year, 11, 7 - dayOfWeek⟩

/-- Record of the per-year moveable feasts (src/engine/types.ts). -/
structure MoveableFeasts where
  septuagesima : Date
  sexagesima : Date
  quinquagesima : Date
  ashWednesday : Date
  palmSunday : Date
  goodFriday : Date
  easterDay : Date
  easterMonday : Date
  ascensionDay : Date
  whitsunday : Date
  whitMonday : Date
  trinitySunday : Date
  adventSunday : Date
  christmasDay : Date
  epiphany : Date
  deriving Repr

/-- Source `computeMoveableFeasts(year)`. -/
def computeMoveableFeasts (year : Nat) : MoveableFeasts :=
  let easter := computeEaster year
  { septuagesima := addDays easter (-63)
    sexagesima := addDays easter (-56)
    quinquagesima := addDays easter (-49)
    ashWednesday := addDays easter (-46)
    palmSunday := addDays easter (-7)
    goodFriday := addDays easter (-2)
    easterDay := easter
    easterMonday := addDays easter 1
    ascensionDay := addDays easter 39
    whitsunday := addDays easter 49
    whitMonday := addDays easter 50
    trinitySunday := addDays easter 56
    adventSunday := computeAdventSunday year
    christmasDay := ⟨year, 11, 25⟩
    epiphany := ⟨year, 0, 6⟩ }

/-! ## Arithmetic lemmas about the date embedding -/

/-- Leap-year day bump as a number. -/
def leapBump (y : Nat) : Nat := if isLeapYear y then 1 else 0

/-- Days before year `z + 1`, as a function of `z` (avoids Nat truncation). -/
def dbyAux (z : Nat) : Nat := 365 * z + z / 4 - z / 100 + z / 400

theorem daysBeforeYear_eq_dbyAux (z : Nat) : daysBeforeYear (z + 1) = dbyAux z := by
  simp [daysBeforeYear, dbyAux]

theorem dbyAux_split (q r : Nat) (h : r ≤ 400) :
    dbyAux (400 * q + r) = 146097 * q + dbyAux r := by
  unfold dbyAux; omega

theorem isLeapYear_split (q t : Nat) : isLeapYear (400 * q + t) = isLeapYear t := by
  unfold isLeapYear
  have h4 : (400 * q + t) % 4 = t % 4 := by omega
  have h100 : (400 * q + t) % 100 = t % 100 := by omega
  have h400 : (400 * q + t) % 400 = t % 400 := by omega
  rw [h4, h100, h400]

set_option maxRecDepth 4000 in
theorem dbyAux_succ_res :
    ∀ r : Fin 400, dbyAux r.val + 365 + leapBump (r.val + 1) = dbyAux (r.val + 1) := by
  decide

theorem dbyAux_succ (z : Nat) : dbyAux (z + 1) = dbyAux z + 365 + leapBump (z + 1) := by
  obtain ⟨q, r, hr, hz⟩ : ∃ q r, r < 400 ∧ z = 400 * q + r :=
    ⟨z / 400, z % 400, Nat.mod_lt _ (by omega), by omega⟩
  subst hz
  have h1 : dbyAux (400 * q + r) = 146097 * q + dbyAux r := dbyAux_split q r (by omega)
  have h2 : dbyAux (400 * q + (r + 1)) = 146097 * q + dbyAux (r + 1) :=
    dbyAux_split q (r + 1) (by omega)
  have h3 : leapBump (400 * q + (r + 1)) = leapBump (r + 1) := by
    unfold leapBump; rw [isLeapYear_split]
  have h4 := dbyAux_succ_res ⟨r, hr⟩
  simp only [show 400 * q + r + 1 = 400 * q + (r + 1) by omega] at *
  omega

theorem daysBeforeYear_succ (y : Nat) (hy : 1 ≤ y) :
    daysBeforeYear (y + 1) = daysBeforeYear y + 365 + leapBump y := by
  obtain ⟨z, rfl⟩ : ∃ z, y = z + 1 := ⟨y - 1, by omega⟩
  rw [daysBeforeYear_eq_dbyAux, daysBeforeYear_eq_dbyAux]
  exact dbyAux_succ z

theorem daysBeforeYear_one : daysBeforeYear 1 = 0 := by simp [daysBeforeYear]

/-- Ordinal bounds for a valid date. -/
theorem ordinalInYear_bounds (d : Date) (hv : Valid d) :
    1 ≤ ordinalInYear d ∧ ordinalInYear d ≤ 365 + leapBump d.year := by
  obtain ⟨hm, hd1, hd2⟩ := hv
  unfold ordinalInYear leapBump
  unfold daysInMonth at hd2
  interval_cases h : d.month <;>
    simp_all [daysBeforeMonth] <;>
    rcases Bool.eq_false_or_eq_true (isLeapYear d.year) with hL | hL <;>
    simp_all <;> omega

@[simp] theorem year_mk (y m d : Nat) : (Date.mk y m d).year = y := rfl

@[simp] theorem month_mk (y m d : Nat) : (Date.mk y m d).month = m := rfl

@[simp] theorem day_mk (y m d : Nat) : (Date.mk y m d).day = d := rfl

theorem daysInMonth_pos (y m : Nat) : 28 ≤ daysInMonth y m := by
  unfold daysInMonth
  split <;> first | omega | (split <;> omega)

theorem daysInMonth_le (y m : Nat) : daysInMonth y m ≤ 31 := by
  unfold daysInMonth
  split <;> first | omega | (split <;> omega)

/-- Stepping to the next day preserves validity and adds one to the
rata-die number. -/
theorem succDay_spec (d : Date) (hv : Valid d) (hy : 1 ≤ d.year) :
    Valid (succDay d) ∧ 1 ≤ (succDay d).year ∧ rd (succDay d) = rd d + 1 := by
  obtain ⟨Y, M, D⟩ := d
  obtain ⟨hm, hd1, hd2⟩ := hv
  simp only [year_mk, month_mk, day_mk] at hm hd1 hd2 hy
  unfold succDay
  simp only [year_mk, month_mk, day_mk]
  by_cases h1 : D < daysInMonth Y M
  · simp only [h1, if_true]
    refine ⟨⟨by simpa using hm, by simp, by simpa using h1⟩, by simpa using hy, ?_⟩
    unfold rd ordinalInYear
    simp only [year_mk, month_mk, day_mk]
    omega
  · simp only [h1, if_false]
    by_cases h2 : M < 11
    · simp only [h2, if_true]
      refine ⟨⟨by simp only [month_mk]; omega, by simp, ?_⟩, by simpa using hy, ?_⟩
      · have := daysInMonth_pos Y (M + 1)
        simp only [year_mk, month_mk, day_mk]
        omega
      unfold rd ordinalInYear
      simp only [year_mk, month_mk, day_mk]
      unfold daysInMonth at h1 hd2
      interval_cases M <;>
        rcases Bool.eq_false_or_eq_true (isLeapYear Y) with hL | hL <;>
        simp_all [daysBeforeMonth] <;> omega
    · simp only [h2, if_false]
      have hm11 : M = 11 := by omega
      subst hm11
      have hdim : daysInMonth Y 11 = 31 := rfl
      have hday : D = 31 := by omega
      subst hday
      refine ⟨⟨?_, ?_, ?_⟩, ?_, ?_⟩
      · exact (by decide : (0 : Nat) ≤ 11)
      · exact Nat.le_refl 1
      · have h28 : (1 : Nat) ≤ 28 := by decide
        exact Nat.le_trans h28 (daysInMonth_pos (Y + 1) 0)
      · exact Nat.le_add_left 1 Y
      unfold rd ordinalInYear
      simp only [year_mk, month_mk, day_mk, daysBeforeYear_succ Y hy]
      unfold leapBump
      rcases Bool.eq_false_or_eq_true (isLeapYear Y) with hL | hL <;>
        simp_all [daysBeforeMonth] <;> omega

/-- Stepping to the previous day, away from the epoch, preserves validity
and subtracts one from the rata-die number. -/
theorem predDay_spec (d : Date) (hv : Valid d) (hy : 1 ≤ d.year) (hrd : 2 ≤ rd d) :
    Valid (predDay d) ∧ 1 ≤ (predDay d).year ∧ rd (predDay d) + 1 = rd d := by
  obtain ⟨Y, M, D⟩ := d
  obtain ⟨hm, hd1, hd2⟩ := hv
  simp only [year_mk, month_mk, day_mk] at hm hd1 hd2 hy hrd
  unfold predDay
  simp only [year_mk, month_mk, day_mk]
  by_cases h1 : 1 < D
  · simp only [h1, if_true]
    refine ⟨⟨by simpa using hm, by simp; omega, by simp only [year_mk, month_mk, day_mk]; omega⟩,
      by simpa using hy, ?_⟩
    unfold rd ordinalInYear
    simp only [year_mk, month_mk, day_mk]
    omega
  · simp only [h1, if_false]
    have hday : D = 1 := by omega
    subst hday
    by_cases h2 : 0 < M
    · simp only [h2, if_true]
      refine ⟨⟨by simp only [month_mk]; omega, ?_, by simp⟩, by simpa using hy, ?_⟩
      · have := daysInMonth_pos Y (M - 1)
        simp only [year_mk, month_mk, day_mk]
        omega
      unfold rd ordinalInYear
      simp only [year_mk, month_mk, day_mk]
      unfold daysInMonth
      interval_cases M <;>
        rcases Bool.eq_false_or_eq_true (isLeapYear Y) with hL | hL <;>
        simp_all [daysBeforeMonth] <;> omega
    · simp only [h2, if_false]
      have hm0 : M = 0 := by omega
      subst hm0
      have hy2 : 2 ≤ Y := by
        by_contra hlt
        have hy1 : Y = 1 := by omega
        unfold rd ordinalInYear at hrd
        rw [hy1] at hrd
        simp [daysBeforeMonth, daysBeforeYear_one, isLeapYear] at hrd
      refine ⟨⟨?_, ?_, ?_⟩, ?_, ?_⟩
      · exact Nat.le_refl 11
      · exact (by decide : (1 : Nat) ≤ 31)
      · have h31 : daysInMonth (Y - 1) 11 = 31 := rfl
        exact Nat.le_of_eq h31.symm
      · exact (by omega : 1 ≤ Y - 1)
      unfold rd ordinalInYear
      obtain ⟨z, hz⟩ : ∃ z, Y = z + 1 := ⟨Y - 1, by omega⟩
      subst hz
      simp only [year_mk, month_mk, day_mk, daysBeforeYear_succ z (by omega)]
      unfold leapBump
      rcases Bool.eq_false_or_eq_true (isLeapYear z) with hL | hL <;>
        simp_all [daysBeforeMonth] <;> omega

/-- Iterated successor: validity and rata-die shift. -/
theorem succDay_iterate_spec (n : Nat) (d : Date) (hv : Valid d) (hy : 1 ≤ d.year) :
    Valid (succDay^[n] d) ∧ 1 ≤ (succDay^[n] d).year ∧
      rd (succDay^[n] d) = rd d + n := by
  induction n generalizing d with
  | zero => simpa using ⟨hv, hy⟩
  | succ n ih =>
    obtain ⟨hv1, hy1, hrd1⟩ := succDay_spec d hv hy
    obtain ⟨hv2, hy2, hrd2⟩ := ih (succDay d) hv1 hy1
    rw [Function.iterate_succ_apply]
    exact ⟨hv2, hy2, by omega⟩

/-- Iterated predecessor: validity and rata-die shift, provided we do not
step past the epoch. -/
theorem predDay_iterate_spec (n : Nat) (d : Date) (hv : Valid d) (hy : 1 ≤ d.year)
    (hn : n < rd d) :
    Valid (predDay^[n] d) ∧ 1 ≤ (predDay^[n] d).year ∧
      rd (predDay^[n] d) + n = rd d := by
  induction n generalizing d with
  | zero => simpa using ⟨hv, hy⟩
  | succ n ih =>
    obtain ⟨hv1, hy1, hrd1⟩ := predDay_spec d hv hy (by omega)
    obtain ⟨hv2, hy2, hrd2⟩ := ih (predDay d) hv1 hy1 (by omega)
    rw [Function.iterate_succ_apply]
    exact ⟨hv2, hy2, by omega⟩

/-- Correctness of `addDays`: for a valid date, shifting by `n` days yields a
valid date whose rata-die number moved by exactly `n`. -/
theorem addDays_spec (d : Date) (n : Int) (hv : Valid d) (hy : 1 ≤ d.year)
    (hn : 0 ≤ n ∨ (-n).toNat < rd d) :
    Valid (addDays d n) ∧ 1 ≤ (addDays d n).year ∧
      (rd (addDays d n) : Int) = (rd d : Int) + n := by
  unfold addDays
  by_cases h : 0 ≤ n
  · simp only [h, if_true]
    obtain ⟨a, b, c⟩ := succDay_iterate_spec n.toNat d hv hy
    exact ⟨a, b, by omega⟩
  · simp only [h, if_false]
    have hn' : (-n).toNat < rd d := by rcases hn with h' | h' <;> omega
    obtain ⟨a, b, c⟩ := predDay_iterate_spec (-n).toNat d hv hy hn'
    exact ⟨a, b, by omega⟩

theorem daysBeforeYear_step (y : Nat) : daysBeforeYear y ≤ daysBeforeYear (y + 1) := by
  rcases Nat.eq_zero_or_pos y with h | h
  · subst h; simp [daysBeforeYear]
  · have := daysBeforeYear_succ y h; omega

theorem daysBeforeYear_mono (y1 y2 : Nat) (h : y1 ≤ y2) :
    daysBeforeYear y1 ≤ daysBeforeYear y2 := by
  induction y2 with
  | zero =>
    have : y1 = 0 := by omega
    subst this; exact Nat.le_refl _
  | succ n ih =>
    rcases Nat.lt_or_ge y1 (n + 1) with hlt | hge
    · exact Nat.le_trans (ih (by omega)) (daysBeforeYear_step n)
    · have : y1 = n + 1 := by omega
      subst this; exact Nat.le_refl _

/-- Valid dates of year `y` have rata-die numbers strictly between the year
boundaries. -/
theorem rd_bounds (d : Date) (hv : Valid d) (hy : 1 ≤ d.year) :
    daysBeforeYear d.year < rd d ∧ rd d ≤ daysBeforeYear (d.year + 1) := by
  obtain ⟨h1, h2⟩ := ordinalInYear_bounds d hv
  have h3 := daysBeforeYear_succ d.year hy
  unfold rd
  omega

/-- Start-of-month offset including the leap bump used by `ordinalInYear`. -/
def monthStart (leap : Bool) (m : Nat) : Nat :=
  daysBeforeMonth m + (if leap && 2 ≤ m then 1 else 0)

theorem ordinalInYear_eq_monthStart (d : Date) :
    ordinalInYear d = monthStart (isLeapYear d.year) d.month + d.day := by
  unfold ordinalInYear monthStart; omega

theorem monthStart_add_daysInMonth (y m : Nat) (hm : m ≤ 10) :
    monthStart (isLeapYear y) m + daysInMonth y m = monthStart (isLeapYear y) (m + 1) := by
  interval_cases m <;>
    rcases Bool.eq_false_or_eq_true (isLeapYear y) with hL | hL <;>
    simp [monthStart, daysBeforeMonth, daysInMonth, hL]

theorem monthStart_strict_mono (leap : Bool) (m1 m2 : Nat) (h1 : m1 < m2) (h2 : m2 ≤ 11) :
    monthStart leap m1 < monthStart leap m2 := by
  have hm1 : m1 ≤ 10 := by omega
  interval_cases m1 <;> interval_cases m2 <;>
    rcases leap <;> simp [monthStart, daysBeforeMonth] <;> omega

/-- Ordinal bounds relative to the month window, for a valid date. -/
theorem ordinal_month_window (d : Date) (hv : Valid d) :
    monthStart (isLeapYear d.year) d.month < ordinalInYear d ∧
      (d.month ≤ 10 →
        ordinalInYear d ≤ monthStart (isLeapYear d.year) (d.month + 1)) := by
  obtain ⟨hm, hd1, hd2⟩ := hv
  rw [ordinalInYear_eq_monthStart]
  refine ⟨by omega, fun hm10 => ?_⟩
  have := monthStart_add_daysInMonth d.year d.month hm10
  omega

/-- Within a fixed year, the ordinal determines month and day. -/
theorem ordinal_inj (a b : Date) (ha : Valid a) (hb : Valid b)
    (hyy : a.year = b.year) (h : ordinalInYear a = ordinalInYear b) : a = b := by
  have hmm : a.month = b.month := by
    by_contra hne
    obtain ⟨wa1, wa2⟩ := ordinal_month_window a ha
    obtain ⟨wb1, wb2⟩ := ordinal_month_window b hb
    rw [hyy] at wa1 wa2
    rcases Nat.lt_or_ge a.month b.month with hlt | hge
    · have h1 := wa2 (by have hb1 := hb.1; omega)
      have h2 := monthStart_strict_mono (isLeapYear b.year) (a.month + 1) b.month
      rcases Nat.lt_or_ge (a.month + 1) b.month with hx | hx
      · have := h2 hx hb.1; omega
      · have : a.month + 1 = b.month := by omega
        rw [this] at h1; omega
    · have hlt : b.month < a.month := by omega
      have h1 := wb2 (by have := ha.1; omega)
      have h2 := monthStart_strict_mono (isLeapYear b.year) (b.month + 1) a.month
      rcases Nat.lt_or_ge (b.month + 1) a.month with hx | hx
      · have := h2 hx ha.1; omega
      · have : b.month + 1 = a.month := by omega
        rw [this] at h1; omega
  have hdd : a.day = b.day := by
    rw [ordinalInYear_eq_monthStart, ordinalInYear_eq_monthStart, hyy, hmm] at h
    omega
  obtain ⟨Ya, Ma, Da⟩ := a
  obtain ⟨Yb, Mb, Db⟩ := b
  simp only [year_mk, month_mk, day_mk] at hyy hmm hdd
  rw [hyy, hmm, hdd]

/-- Rata-die numbers are injective on valid dates (year at least 1). -/
theorem rd_inj (a b : Date) (ha : Valid a) (hb : Valid b)
    (hya : 1 ≤ a.year) (hyb : 1 ≤ b.year) (h : rd a = rd b) : a = b := by
  have hyy : a.year = b.year := by
    by_contra hne
    obtain ⟨ba1, ba2⟩ := rd_bounds a ha hya
    obtain ⟨bb1, bb2⟩ := rd_bounds b hb hyb
    rcases Nat.lt_or_ge a.year b.year with hlt | hge
    · have := daysBeforeYear_mono (a.year + 1) b.year (by omega)
      omega
    · have hlt : b.year < a.year := by omega
      have := daysBeforeYear_mono (b.year + 1) a.year (by omega)
      omega
  have ho : ordinalInYear a = ordinalInYear b := by
    unfold rd at h; rw [hyy] at h; omega
  exact ordinal_inj a b ha hb hyy ho

/-! ## Easter and Advent facts -/

theorem easterX_bounds (y : Nat) : 114 ≤ easterX y ∧ easterX y ≤ 148 := by
  simp only [easterX]
  omega

theorem div100_mod4_split (q t : Nat) (h : t ≤ 400) :
    (400 * q + t) / 100 % 4 = t / 100 % 4 := by
  have h1 : (400 * q + t) / 100 = 4 * q + t / 100 := by omega
  rw [h1]
  omega

set_option maxRecDepth 4000 in
theorem sunday_res :
    ∀ r : Fin 400,
      (dbyAux r.val + leapBump (r.val + 1) + 2 * ((r.val + 1) / 100 % 4)
        + 2 * ((r.val + 1) % 100 / 4) + 141) % 7 = (r.val + 1) % 100 % 4 := by
  decide

/-- The weekday core congruence: the Gregorian calendar's day-before-year
count plus the leap bump and century terms determines the weekday residue. -/
theorem sunday_core (y : Nat) (hy : 1 ≤ y) :
    (daysBeforeYear y + leapBump y + 2 * (y / 100 % 4) + 2 * (y % 100 / 4) + 141) % 7
      = y % 100 % 4 := by
  obtain ⟨z, rfl⟩ : ∃ z, y = z + 1 := ⟨y - 1, by omega⟩
  rw [daysBeforeYear_eq_dbyAux]
  obtain ⟨q, r, hr, hz⟩ : ∃ q r, r < 400 ∧ z = 400 * q + r :=
    ⟨z / 400, z % 400, Nat.mod_lt _ (by omega), by omega⟩
  subst hz
  have e1 : dbyAux (400 * q + r) = 146097 * q + dbyAux r := dbyAux_split q r (by omega)
  have e2 : leapBump (400 * q + r + 1) = leapBump (r + 1) := by
    unfold leapBump
    rw [show 400 * q + r + 1 = 400 * q + (r + 1) from rfl, isLeapYear_split]
  have e3 : (400 * q + r + 1) / 100 % 4 = (r + 1) / 100 % 4 := by
    rw [show 400 * q + r + 1 = 400 * q + (r + 1) from rfl]
    exact div100_mod4_split q (r + 1) (by omega)
  have e4 : (400 * q + r + 1) % 100 = (r + 1) % 100 := by omega
  have e5 : (dbyAux r + leapBump (r + 1) + 2 * ((r + 1) / 100 % 4)
      + 2 * ((r + 1) % 100 / 4) + 141) % 7 = (r + 1) % 100 % 4 := sunday_res ⟨r, hr⟩
  rw [e1, e2, e3, e4]
  omega

/-- Cancellation of the lunar terms: modulo 7, the Easter numerator reduces
to the century and quarter terms alone. -/
theorem easterX_congr (y : Nat) :
    (easterX y + y % 100 % 4) % 7 = (146 + 2 * (y / 100 % 4) + 2 * (y % 100 / 4)) % 7 := by
  simp only [easterX]
  omega

/-- Easter Day always falls on a Sunday: the defining congruence. -/
theorem easterX_sunday (y : Nat) (hy : 1 ≤ y) :
    (daysBeforeYear y + leapBump y + easterX y) % 7 = 5 := by
  have h1 := sunday_core y hy
  have h2 := easterX_congr y
  have h3 : y % 100 % 4 < 4 := Nat.mod_lt _ (by omega)
  omega

/-- The leap bump of `ordinalInYear` for a month at or after March. -/
theorem ordinalInYear_mk_late (y m d : Nat) (h : 2 ≤ m) :
    ordinalInYear ⟨y, m, d⟩ = daysBeforeMonth m + d + leapBump y := by
  unfold ordinalInYear leapBump
  simp only [year_mk, month_mk, day_mk]
  rcases Bool.eq_false_or_eq_true (isLeapYear y) with hL | hL <;> simp [hL, h]

/-- The leap bump of `ordinalInYear` vanishes for January and February. -/
theorem ordinalInYear_mk_early (y m d : Nat) (h : m < 2) :
    ordinalInYear ⟨y, m, d⟩ = daysBeforeMonth m + d := by
  unfold ordinalInYear
  simp only [year_mk, month_mk, day_mk]
  have h2 : ¬ (2 ≤ m) := by omega
  rcases Bool.eq_false_or_eq_true (isLeapYear y) with hL | hL <;> simp [hL, h2]

/-- Shape, validity, ordinal, and Sunday-ness of `computeEaster`. -/
theorem computeEaster_spec (y : Nat) (hy : 1 ≤ y) :
    (computeEaster y).year = y ∧ Valid (computeEaster y) ∧
      ordinalInYear (computeEaster y) = easterX y - 33 + leapBump y ∧
      getDay (computeEaster y) = 0 := by
  obtain ⟨hb1, hb2⟩ := easterX_bounds y
  have hs := easterX_sunday y hy
  unfold computeEaster
  rcases Nat.lt_or_ge (easterX y) 124 with hX | hX
  · have hm : easterX y / 31 = 3 := by omega
    have hd : easterX y % 31 = easterX y - 93 := by omega
    rw [hm, hd, show (3 : Nat) - 1 = 2 from rfl]
    have hord := ordinalInYear_mk_late y 2 (easterX y - 93 + 1) (by omega)
    have hdbm : daysBeforeMonth 2 = 59 := rfl
    have hdim : daysInMonth y 2 = 31 := rfl
    refine ⟨rfl, ⟨by simp, by simp, ?_⟩, ?_, ?_⟩
    · simp only [year_mk, month_mk, day_mk]
      rw [hdim]
      omega
    · rw [hord]; omega
    · show rd ⟨y, 2, easterX y - 93 + 1⟩ % 7 = 0
      unfold rd
      simp only [year_mk]
      rw [hord]
      omega
  · have hm : easterX y / 31 = 4 := by omega
    have hd : easterX y % 31 = easterX y - 124 := by omega
    rw [hm, hd, show (4 : Nat) - 1 = 3 from rfl]
    have hord := ordinalInYear_mk_late y 3 (easterX y - 124 + 1) (by omega)
    have hdbm : daysBeforeMonth 3 = 90 := rfl
    have hdim : daysInMonth y 3 = 30 := rfl
    refine ⟨rfl, ⟨by simp, by simp, ?_⟩, ?_, ?_⟩
    · simp only [year_mk, month_mk, day_mk]
      rw [hdim]
      omega
    · rw [hord]; omega
    · show rd ⟨y, 3, easterX y - 124 + 1⟩ % 7 = 0
      unfold rd
      simp only [year_mk]
      rw [hord]
      omega

/-- Shape, validity, window, Sunday-ness, and nearness of
`computeAdventSunday`. -/
theorem computeAdventSunday_spec (y : Nat) (hy : 1 ≤ y) :
    Valid (computeAdventSunday y) ∧ (computeAdventSunday y).year = y ∧
      getDay (computeAdventSunday y) = 0 ∧
      331 + leapBump y ≤ ordinalInYear (computeAdventSunday y) ∧
      ordinalInYear (computeAdventSunday y) ≤ 337 + leapBump y ∧
      (daysBetween ⟨y, 10, 30⟩ (computeAdventSunday y)).natAbs ≤ 3 := by
  have hdbm10 : daysBeforeMonth 10 = 304 := rfl
  have hdbm11 : daysBeforeMonth 11 = 334 := rfl
  have hnov : ordinalInYear ⟨y, 10, 30⟩ = 334 + leapBump y := by
    rw [ordinalInYear_mk_late y 10 30 (by omega)]; omega
  have hw : getDay ⟨y, 10, 30⟩ < 7 := Nat.mod_lt _ (by omega)
  have hwdef : getDay ⟨y, 10, 30⟩ = rd ⟨y, 10, 30⟩ % 7 := rfl
  have hrdnov : rd ⟨y, 10, 30⟩ = daysBeforeYear y + 334 + leapBump y := by
    unfold rd
    simp only [year_mk]
    omega
  have hwrd : getDay ⟨y, 10, 30⟩ = (daysBeforeYear y + 334 + leapBump y) % 7 := by
    rw [hwdef, hrdnov]
  unfold computeAdventSunday
  rcases le_or_lt (getDay ⟨y, 10, 30⟩) 3 with h3 | h3
  · simp only [h3, if_true]
    have hdim : daysInMonth y 10 = 30 := rfl
    have hord := ordinalInYear_mk_late y 10 (30 - getDay ⟨y, 10, 30⟩) (by omega)
    have hrdres : rd ⟨y, 10, 30 - getDay ⟨y, 10, 30⟩⟩
        = daysBeforeYear y + 334 + leapBump y - getDay ⟨y, 10, 30⟩ := by
      unfold rd
      simp only [year_mk]
      rw [hord]
      omega
    refine ⟨⟨by simp, ?_, ?_⟩, ?_, ?_, ?_, ?_, ?_⟩
    · simp only [day_mk]; omega
    · simp only [year_mk, month_mk, day_mk]
      rw [hdim]
      omega
    · trivial
    · show rd ⟨y, 10, 30 - getDay ⟨y, 10, 30⟩⟩ % 7 = 0
      rw [hrdres]
      omega
    · rw [hord]; omega
    · rw [hord]; omega
    · unfold daysBetween
      rw [hrdres, hrdnov]
      omega
  · simp only [show ¬ getDay ⟨y, 10, 30⟩ ≤ 3 by omega, if_false]
    have hdim : daysInMonth y 11 = 31 := rfl
    have hord := ordinalInYear_mk_late y 11 (7 - getDay ⟨y, 10, 30⟩) (by omega)
    have hrdres : rd ⟨y, 11, 7 - getDay ⟨y, 10, 30⟩⟩
        = daysBeforeYear y + 334 + leapBump y + (7 - getDay ⟨y, 10, 30⟩) := by
      unfold rd
      simp only [year_mk]
      rw [hord]
      omega
    refine ⟨⟨by simp, ?_, ?_⟩, ?_, ?_, ?_, ?_, ?_⟩
    · simp only [day_mk]; omega
    · simp only [year_mk, month_mk, day_mk]
      rw [hdim]
      omega
    · trivial
    · show rd ⟨y, 11, 7 - getDay ⟨y, 10, 30⟩⟩ % 7 = 0
      rw [hrdres]
      omega
    · rw [hord]; omega
    · rw [hord]; omega
    · unfold daysBetween
      rw [hrdres, hrdnov]
      omega

/-! ## Psalter Cycle Engine (psalter module) -/

/-- Morning or evening session. -/
inductive Session
  | morning
  | evening
  deriving DecidableEq, Repr

/-- One entry of the 30-day psalter table. -/
structure PsalterDay where
  day : Nat
  morning : List Nat
  evening : List Nat
  deriving DecidableEq, Repr

/-- Source `PSALTER_30_DAY`: the 30-day psalter cycle of the 1662 BCP. -/
def PSALTER_30_DAY : List PsalterDay := [
  ⟨1, [1, 2, 3, 4, 5], [6, 7, 8]⟩,
  ⟨2, [9, 10, 11], [12, 13, 14]⟩,
  ⟨3, [15, 16, 17], [18]⟩,
  ⟨4, [19, 20, 21], [22, 23]⟩,
  ⟨5, [24, 25, 26], [27, 28, 29]⟩,
  ⟨6, [30, 31], [32, 33, 34]⟩,
  ⟨7, [35, 36], [37]⟩,
  ⟨8, [38, 39, 40], [41, 42, 43]⟩,
  ⟨9, [44, 45, 46], [47, 48, 49]⟩,
  ⟨10, [50, 51, 52], [53, 54, 55]⟩,
  ⟨11, [56, 57, 58], [59, 60, 61]⟩,
  ⟨12, [62, 63, 64], [65, 66, 67]⟩,
  ⟨13, [68], [69, 70]⟩,
  ⟨14, [71, 72], [73, 74]⟩,
  ⟨15, [75, 76, 77], [78]⟩,
  ⟨16, [79, 80, 81], [82, 83, 84, 85]⟩,
  ⟨17, [86, 87, 88], [89]⟩,
  ⟨18, [90, 91, 92], [93, 94]⟩,
  ⟨19, [95, 96, 97], [98, 99, 100, 101]⟩,
  ⟨20, [102, 103], [104]⟩,
  ⟨21, [105], [106]⟩,
  ⟨22, [107], [108, 109]⟩,
  ⟨23, [110, 111, 112, 113], [114, 115]⟩,
  ⟨24, [116, 117, 118], [119]⟩,
  ⟨25, [119], [119]⟩,
  ⟨26, [119], [119]⟩,
  ⟨27, [120, 121, 122, 123, 124, 125], [126, 127, 128, 129, 130, 131]⟩,
  ⟨28, [132, 133, 134, 135], [136, 137, 138]⟩,
  ⟨29, [139, 140, 141], [142, 143]⟩,
  ⟨30, [144, 145, 146], [147, 148, 149, 150]⟩]

/-- A verse range of the Psalm 119 division table. -/
structure VerseRange where
  startVerse : Nat
  endVerse : Nat
  deriving DecidableEq, Repr

/-- Source `PSALM_119_DIVISIONS`: record keyed by `"{cycleDay}-{session}"`,
embedded as an association list in the source's order. -/
def PSALM_119_DIVISIONS : List (String × VerseRange) := [
  ("24-evening", ⟨1, 32⟩),
  ("25-morning", ⟨33, 72⟩),
  ("25-evening", ⟨73, 104⟩),
  ("26-morning", ⟨105, 144⟩),
  ("26-evening", ⟨145, 176⟩)]

/-- Source `getPsalterDayNumber(date)`: the 30-day cycle position.
`new Date(year, 2, 0).getDate()` (the number of days in February) is
`daysInMonth year 1`. -/
def getPsalterDayNumber (date : Date) : Nat :=
  if date.month = 1 then
    if date.day = daysInMonth date.year 1 then 30
    else min date.day 30
  else min date.day 30

/-- Source `getPsalmsForDay(date, session)`: table lookup by cycle day;
the guard returns an empty list when the index misses the table. -/
def getPsalmsForDay (date : Date) (session : Session) : List Nat :=
  let psalterDay := getPsalterDayNumber date
  match PSALTER_30_DAY.get? (psalterDay - 1) with
  | none => []
  | some entry =>
    match session with
    | .morning => entry.morning
    | .evening => entry.evening

/-- Source `shouldOmitVenite(date)`. -/
def shouldOmitVenite (date : Date) : Bool :=
  getPsalterDayNumber date == 19

/-! ## Calendar types and tables (src/engine/calendar.ts) -/

/-- Holy-day rank. -/
inductive HolyDayRank
  | principal
  | major
  | minor
  deriving DecidableEq, Repr

/-- One entry of the fixed-holy-day table. -/
structure FixedHolyDay where
  month : Nat
  day : Nat
  name : String
  rank : HolyDayRank
  collectId : String
  deriving DecidableEq, Repr

/-- Source `FIXED_HOLY_DAYS` (24 entries; months 0-indexed). -/
def FIXED_HOLY_DAYS : List FixedHolyDay := [
  ⟨10, 30, "St Andrew", .major, "st-andrew"⟩,
  ⟨11, 21, "St Thomas", .minor, "st-thomas"⟩,
  ⟨11, 25, "Christmas Day", .principal, "christmas"⟩,
  ⟨11, 26, "St Stephen", .minor, "st-stephen"⟩,
  ⟨11, 27, "St John the Evangelist", .minor, "st-john-evangelist"⟩,
  ⟨11, 28, "Holy Innocents", .minor, "holy-innocents"⟩,
  ⟨0, 1, "Circumcision", .principal, "circumcision"⟩,
  ⟨0, 6, "Epiphany", .principal, "epiphany"⟩,
  ⟨0, 25, "Conversion of St Paul", .major, "conversion-st-paul"⟩,
  ⟨1, 2, "Purification", .major, "purification"⟩,
  ⟨1, 24, "St Matthias", .minor, "st-matthias"⟩,
  ⟨2, 25, "Annunciation", .major, "annunciation"⟩,
  ⟨3, 25, "St Mark", .minor, "st-mark"⟩,
  ⟨4, 1, "SS Philip & James", .minor, "ss-philip-james"⟩,
  ⟨5, 11, "St Barnabas", .minor, "st-barnabas"⟩,
  ⟨5, 24, "Nativity of St John the Baptist", .major, "nativity-john-baptist"⟩,
  ⟨5, 29, "St Peter", .major, "st-peter"⟩,
  ⟨6, 25, "St James", .minor, "st-james"⟩,
  ⟨7, 24, "St Bartholomew", .minor, "st-bartholomew"⟩,
  ⟨8, 21, "St Matthew", .minor, "st-matthew"⟩,
  ⟨8, 29, "Michaelmas", .major, "michaelmas"⟩,
  ⟨9, 18, "St Luke", .minor, "st-luke"⟩,
  ⟨9, 28, "SS Simon & Jude", .minor, "ss-simon-jude"⟩,
  ⟨10, 1, "All Saints\x27 Day", .major, "all-saints"⟩]

/-- The ten liturgical season tags. -/
inductive LiturgicalSeason
  | advent
  | christmas
  | epiphany
  | preLent
  | lent
  | holyWeek
  | easter
  | ascension
  | whitsun
  | trinity
  deriving DecidableEq, Repr

/-- The season tag strings of the source type `LiturgicalSeason`. -/
def seasonStr : LiturgicalSeason → String
  | .advent => "advent"
  | .christmas => "christmas"
  | .epiphany => "epiphany"
  | .preLent => "pre-lent"
  | .lent => "lent"
  | .holyWeek => "holy-week"
  | .easter => "easter"
  | .ascension => "ascension"
  | .whitsun => "whitsun"
  | .trinity => "trinity"

/-! ## Season Determination (determineSeason, calendar.ts lines 109-182) -/

/-- Source `determineSeason(date, feasts)`: the ordered cascade of inclusive
range tests, with the final `return 'trinity'` fallback. -/
def determineSeason (date : Date) (feasts : MoveableFeasts) : LiturgicalSeason :=
  let year := date.year
  let holySaturday := addDays feasts.easterDay (-1)
  if isDateInRange date feasts.palmSunday holySaturday then .holyWeek
  else
    let dayBeforePalm := addDays feasts.palmSunday (-1)
    if isDateInRange date feasts.ashWednesday dayBeforePalm then .lent
    else
      let shroveTuesday := addDays feasts.ashWednesday (-1)
      if isDateInRange date feasts.septuagesima shroveTuesday then .preLent
      else
        let eveOfAscension := addDays feasts.ascensionDay (-1)
        if isDateInRange date feasts.easterDay eveOfAscension then .easter
        else
          let eveOfWhitsun := addDays feasts.whitsunday (-1)
          if isDateInRange date feasts.ascensionDay eveOfWhitsun then .ascension
          else
            let trinitySaturday := addDays feasts.trinitySunday (-1)
            if isDateInRange date feasts.whitsunday trinitySaturday then .whitsun
            else
              let satBeforeAdvent := addDays feasts.adventSunday (-1)
              if isDateInRange date feasts.trinitySunday satBeforeAdvent then .trinity
              else
                let dec24 : Date := ⟨year, 11, 24⟩
                if isDateInRange date feasts.adventSunday dec24 then .advent
                else
                  let christmasDay : Date := ⟨year, 11, 25⟩
                  let dec31 : Date := ⟨year, 11, 31⟩
                  if isDateInRange date christmasDay dec31 then .christmas
                  else
                    let jan1 : Date := ⟨year, 0, 1⟩
                    let jan5 : Date := ⟨year, 0, 5⟩
                    if isDateInRange date jan1 jan5 then .christmas
                    else
                      let dayBeforeSeptuagesima := addDays feasts.septuagesima (-1)
                      if isDateInRange date feasts.epiphany dayBeforeSeptuagesima then
                        .epiphany
                      else .trinity

/-- The same cascade with the fallback made observable: `none` exactly when
the final `return 'trinity'` fallback of `determineSeason` would run. -/
def determineSeasonOpt (date : Date) (feasts : MoveableFeasts) : Option LiturgicalSeason :=
  let year := date.year
  let holySaturday := addDays feasts.easterDay (-1)
  if isDateInRange date feasts.palmSunday holySaturday then some .holyWeek
  else
    let dayBeforePalm := addDays feasts.palmSunday (-1)
    if isDateInRange date feasts.ashWednesday dayBeforePalm then some .lent
    else
      let shroveTuesday := addDays feasts.ashWednesday (-1)
      if isDateInRange date feasts.septuagesima shroveTuesday then some .preLent
      else
        let eveOfAscension := addDays feasts.ascensionDay (-1)
        if isDateInRange date feasts.easterDay eveOfAscension then some .easter
        else
          let eveOfWhitsun := addDays feasts.whitsunday (-1)
          if isDateInRange date feasts.ascensionDay eveOfWhitsun then some .ascension
          else
            let trinitySaturday := addDays feasts.trinitySunday (-1)
            if isDateInRange date feasts.whitsunday trinitySaturday then some .whitsun
            else
              let satBeforeAdvent := addDays feasts.adventSunday (-1)
              if isDateInRange date feasts.trinitySunday satBeforeAdvent then some .trinity
              else
                let dec24 : Date := ⟨year, 11, 24⟩
                if isDateInRange date feasts.adventSunday dec24 then some .advent
                else
                  let christmasDay : Date := ⟨year, 11, 25⟩
                  let dec31 : Date := ⟨year, 11, 31⟩
                  if isDateInRange date christmasDay dec31 then some .christmas
                  else
                    let jan1 : Date := ⟨year, 0, 1⟩
                    let jan5 : Date := ⟨year, 0, 5⟩
                    if isDateInRange date jan1 jan5 then some .christmas
                    else
                      let dayBeforeSeptuagesima := addDays feasts.septuagesima (-1)
                      if isDateInRange date feasts.epiphany dayBeforeSeptuagesima then
                        some .epiphany
                      else none

/-- The individual range test of the cascade for each season tag, read off
the source's if-conditions (christmas is the union of its two ranges). -/
def seasonMatch (date : Date) (feasts : MoveableFeasts) : LiturgicalSeason → Bool
  | .holyWeek => isDateInRange date feasts.palmSunday (addDays feasts.easterDay (-1))
  | .lent => isDateInRange date feasts.ashWednesday (addDays feasts.palmSunday (-1))
  | .preLent => isDateInRange date feasts.septuagesima (addDays feasts.ashWednesday (-1))
  | .easter => isDateInRange date feasts.easterDay (addDays feasts.ascensionDay (-1))
  | .ascension => isDateInRange date feasts.ascensionDay (addDays feasts.whitsunday (-1))
  | .whitsun => isDateInRange date feasts.whitsunday (addDays feasts.trinitySunday (-1))
  | .trinity => isDateInRange date feasts.trinitySunday (addDays feasts.adventSunday (-1))
  | .advent => isDateInRange date feasts.adventSunday ⟨date.year, 11, 24⟩
  | .christmas =>
      isDateInRange date ⟨date.year, 11, 25⟩ ⟨date.year, 11, 31⟩ ||
        isDateInRange date ⟨date.year, 0, 1⟩ ⟨date.year, 0, 5⟩
  | .epiphany => isDateInRange date feasts.epiphany (addDays feasts.septuagesima (-1))

/-! ## Liturgical Day Resolver (resolveLiturgicalDay, calendar.ts) -/

/-- Source `computeWeekOfSeason(date, season, feasts)`.  JavaScript
`Math.floor` of a quotient is `Int.fdiv`. -/
def computeWeekOfSeason (date : Date) (season : LiturgicalSeason)
    (feasts : MoveableFeasts) : Int :=
  match season with
  | .advent => Int.fdiv (daysBetween feasts.adventSunday date) 7 + 1
  | .epiphany =>
    let firstSundayAfterEpiphany := nextSundayOnOrAfter (addDays feasts.epiphany 1)
    if 0 < daysBetween date firstSundayAfterEpiphany then 0
    else Int.fdiv (daysBetween firstSundayAfterEpiphany date) 7 + 1
  | .lent => Int.fdiv (daysBetween feasts.ashWednesday date) 7 + 1
  | .easter => Int.fdiv (daysBetween feasts.easterDay date) 7 + 1
  | .trinity => Int.fdiv (daysBetween feasts.trinitySunday date) 7
  | _ => 1

/-- The season display names of `formatDayName`. -/
def seasonDisplayName : LiturgicalSeason → String
  | .advent => "Advent"
  | .christmas => "Christmas"
  | .epiphany => "Epiphany"
  | .preLent => "Pre-Lent"
  | .lent => "Lent"
  | .holyWeek => "Holy Week"
  | .easter => "Easter"
  | .ascension => "Ascensiontide"
  | .whitsun => "Whitsun"
  | .trinity => "Trinity"

/-- The `dayNames` array of `formatDayName`. -/
def dayNames : List String :=
  ["Sunday", "Monday", "Tuesday", "Wednesday", "Thursday", "Friday", "Saturday"]

/-- The `ordinals` array of `formatDayName` (index 0 is the empty string). -/
def weekOrdinals : List String :=
  ["", "First", "Second", "Third", "Fourth", "Fifth", "Sixth", "Seventh",
   "Eighth", "Ninth", "Tenth", "Eleventh", "Twelfth", "Thirteenth", "Fourteenth",
   "Fifteenth", "Sixteenth", "Seventeenth", "Eighteenth", "Nineteenth", "Twentieth",
   "Twenty-first", "Twenty-second", "Twenty-third", "Twenty-fourth", "Twenty-fifth"]

/-- Source `formatDayName(season, week, dayOfWeek)`.  The source's
`ordinals[week] ?? `${week}th`` falls back exactly when the index misses
the 26-entry array. -/
def formatDayName (season : LiturgicalSeason) (week : Int) (dayOfWeek : Nat) : String :=
  let seasonName := seasonDisplayName season
  let ord :=
    if 0 ≤ week ∧ week < 26 then weekOrdinals.getD week.toNat ""
    else
      let w := week
      s!"{w}th"
  if dayOfWeek = 0 then
    if season = .trinity then s!"The {ord} Sunday after Trinity"
    else if season = .advent then s!"The {ord} Sunday in Advent"
    else if season = .lent then s!"The {ord} Sunday in Lent"
    else if season = .easter then s!"The {ord} Sunday after Easter"
    else if season = .epiphany then s!"The {ord} Sunday after Epiphany"
    else s!"{seasonName} {ord} Sunday"
  else
    let dn := dayNames.getD dayOfWeek ""
    let w := week
    s!"{dn} in {seasonName} {w}"

/-- Source `computeCollectId(season, week)`. -/
def computeCollectId (season : LiturgicalSeason) (week : Int) : String :=
  let s := seasonStr season
  let w := week
  s!"{s}-{w}"

/-- The resolved liturgical identity of a date (src/engine/types.ts). -/
structure LiturgicalDay where
  date : Date
  season : LiturgicalSeason
  weekOfSeason : Int
  dayOfWeek : Nat
  name : String
  isHolyDay : Bool
  holyDayName : Option String
  holyDayRank : Option HolyDayRank
  collectId : String
  isSunday : Bool
  psalmsDay : Nat
  deriving DecidableEq, Repr

/-- The moveable-feast if-chain of `resolveLiturgicalDay` (calendar.ts lines
293-325), returning the `(moveableName, moveableCollectId, moveableRank)`
triple it assigns, or `none` when no branch fires. -/
def moveableFeastMatch (date : Date) (feasts : MoveableFeasts) :
    Option (String × String × HolyDayRank) :=
  if isSameDay date feasts.easterDay then some ("Easter Day", "easter-day", .principal)
  else if isSameDay date feasts.ascensionDay then
    some ("Ascension Day", "ascension-day", .principal)
  else if isSameDay date feasts.whitsunday then some ("Whitsunday", "whitsunday", .principal)
  else if isSameDay date feasts.trinitySunday then
    some ("Trinity Sunday", "trinity-sunday", .principal)
  else if isSameDay date feasts.ashWednesday then
    some ("Ash Wednesday", "ash-wednesday", .major)
  else if isSameDay date feasts.goodFriday then some ("Good Friday", "good-friday", .major)
  else if isSameDay date feasts.palmSunday then some ("Palm Sunday", "palm-sunday", .major)
  else none

/-- The default (ordinary) liturgical-day record that `resolveLiturgicalDay`
builds with its mutable `let` defaults before applying precedence: season,
week, psalter day, the composite collect key and the formatted name. -/
def baseLiturgicalDay (date : Date) : LiturgicalDay :=
  let feasts := computeMoveableFeasts date.year
  let season := determineSeason date feasts
  let dayOfWeek := getDay date
  let week := computeWeekOfSeason date season feasts
  { date := date
    season := season
    weekOfSeason := week
    dayOfWeek := dayOfWeek
    name := formatDayName season week dayOfWeek
    isHolyDay := false
    holyDayName := none
    holyDayRank := none
    collectId := computeCollectId season week
    isSunday := dayOfWeek == 0
    psalmsDay := getPsalterDayNumber date }

/-- The precedence block of `resolveLiturgicalDay` (calendar.ts lines
327-358).  The source's two moveable branches (`moveableName &&
moveableRank === 'principal'` and the following `else if (moveableName)`)
assign exactly the same fields, so they are rendered as one `some` case;
keeping the mutable `let` defaults becomes returning `base` unchanged. -/
def applyPrecedence (base : LiturgicalDay) (isSunday : Bool)
    (moveable : Option (String × String × HolyDayRank))
    (fixedHolyDay : Option FixedHolyDay) : LiturgicalDay :=
  match moveable with
  | some (n, c, r) =>
    { base with
      isHolyDay := true
      holyDayName := some n
      holyDayRank := some r
      collectId := c
      name := n }
  | none =>
    match fixedHolyDay with
    | some hd =>
      if isSunday && hd.rank == .minor then
        base
      else
        { base with
          isHolyDay := true
          holyDayName := some hd.name
          holyDayRank := some hd.rank
          collectId := hd.collectId
          name := hd.name }
    | none => base

/-- Source `resolveLiturgicalDay(date)`: the ordinary defaults, the fixed
holy-day lookup and the moveable feast check, combined by precedence. -/
def resolveLiturgicalDay (date : Date) : LiturgicalDay :=
  applyPrecedence (baseLiturgicalDay date) (getDay date == 0)
    (moveableFeastMatch date (computeMoveableFeasts date.year))
    (FIXED_HOLY_DAYS.find? (fun hd => hd.month == date.month && hd.day == date.day))

theorem applyPrecedence_moveable (b : LiturgicalDay) (s : Bool)
    (f : Option FixedHolyDay) (n c : String) (r : HolyDayRank) :
    applyPrecedence b s (some (n, c, r)) f =
      { b with
        isHolyDay := true
        holyDayName := some n
        holyDayRank := some r
        collectId := c
        name := n } := rfl

theorem applyPrecedence_fixed_yields (b : LiturgicalDay) (s : Bool) (hd : FixedHolyDay)
    (h : (s && hd.rank == HolyDayRank.minor) = true) :
    applyPrecedence b s none (some hd) = b := by
  simp [applyPrecedence, h]

/-- The fields of the ordinary (pre-precedence) record. -/
theorem baseLiturgicalDay_fields (d : Date) :
    (baseLiturgicalDay d).name =
      formatDayName (baseLiturgicalDay d).season (baseLiturgicalDay d).weekOfSeason
        (baseLiturgicalDay d).dayOfWeek ∧
    (baseLiturgicalDay d).collectId =
      computeCollectId (baseLiturgicalDay d).season (baseLiturgicalDay d).weekOfSeason ∧
    (baseLiturgicalDay d).holyDayRank = none ∧
    (baseLiturgicalDay d).isHolyDay = false := by
  refine ⟨?_, ?_, ?_, ?_⟩ <;> simp only [baseLiturgicalDay]

theorem applyPrecedence_fixed_wins (b : LiturgicalDay) (s : Bool) (hd : FixedHolyDay)
    (h : (s && hd.rank == HolyDayRank.minor) = false) :
    applyPrecedence b s none (some hd) =
      { b with
        isHolyDay := true
        holyDayName := some hd.name
        holyDayRank := some hd.rank
        collectId := hd.collectId
        name := hd.name } := by
  simp [applyPrecedence, h]

/-! ## Lectionary Resolver (lectionary module) -/

/-- A scripture reading reference (src/engine/types.ts). -/
structure ReadingRef where
  book : String
  startChapter : Nat
  startVerse : Option Nat
  endChapter : Nat
  endVerse : Option Nat
  deriving DecidableEq, Repr

/-- First and second lessons for a session. -/
structure DailyReadings where
  first : List ReadingRef
  second : List ReadingRef
  deriving DecidableEq, Repr

/-- Source `dayOfYear(date)`: millisecond difference from January 1 of the
date's year, divided out into whole days, plus one. -/
def dayOfYear (date : Date) : Int :=
  daysBetween ⟨date.year, 0, 1⟩ date + 1

/-- One entry of the externally loaded M'Cheyne table (`mcheyne.json`),
an array of `{day, morning, evening}` records keyed by plan day 1-365. -/
structure McheyneEntry where
  day : Int
  morning : List ReadingRef
  evening : List ReadingRef
  deriving DecidableEq, Repr

/-- One entry of the externally loaded BibleProject table; `sectionLabel`
embeds the source field `section` (a Lean keyword). -/
structure BibleProjectEntry where
  day : Int
  sectionLabel : String
  reading : List ReadingRef
  psalm : ReadingRef
  deriving DecidableEq, Repr

/-- The plan-day number used by `resolveMcheyne` (lines 322-341): the
explicit anchor-derived plan day when supplied, otherwise the legacy
day-of-year derivation with the leap-year corrections, both clamped to 365
by the final `Math.min`. -/
def mcheyneDayNumber (date : Date) (planDay : Option Int) : Int :=
  let doy :=
    match planDay with
    | some p => p
    | none =>
      let year := date.year
      let isLeap := isLeapYear year
      let doy0 := dayOfYear date
      let doy1 :=
        if isLeap && date.month == 1 && date.day == 29 then dayOfYear ⟨year, 1, 28⟩
        else doy0
      if isLeap && doy1 > 60 then doy1 - 1 else doy1
  min doy 365

/-- Source `resolveMcheyne(date, session, planDay)`; the module-level
`mcheyne` cache is passed explicitly (`none` embeds the not-loaded state).
The source maps the session's two readings onto first/second by position. -/
def resolveMcheyne (table : Option (List McheyneEntry)) (date : Date)
    (session : Session) (planDay : Option Int) : DailyReadings :=
  match table with
  | none => ⟨[], []⟩
  | some mcheyne =>
    let doy := mcheyneDayNumber date planDay
    match mcheyne.find? (fun d => d.day == doy) with
    | none => ⟨[], []⟩
    | some entry =>
      let readings :=
        match session with
        | .morning => entry.morning
        | .evening => entry.evening
      { first :=
          match readings with
          | [] => []
          | r :: _ => [r]
        second :=
          match readings with
          | _ :: r :: _ => [r]
          | _ => [] }

/-- Source `resolveBibleProject(planDay)`; the module-level `bibleproject`
cache is passed explicitly. -/
def resolveBibleProject (table : Option (List BibleProjectEntry))
    (planDay : Option Int) : DailyReadings :=
  match table, planDay with
  | some bibleproject, some p =>
    match bibleproject.find? (fun d => d.day == p) with
    | none => ⟨[], []⟩
    | some entry => ⟨entry.reading, [entry.psalm]⟩
  | _, _ => ⟨[], []⟩

/-! ## Sequential plan-day mapping (src/utils/plan-day.ts) -/

/-- Source `computePlanDay(startDate, currentDate, totalDays)`.  The source
works on `YYYY-MM-DD` strings through the string `daysBetween` utility,
whose calendrical meaning is the rata-die difference. -/
def computePlanDay (startDate currentDate : Date) (totalDays : Int) : Option Int :=
  let offset := daysBetween startDate currentDate + 1
  if offset < 1 then none
  else if offset > totalDays then none
  else some offset

/-! ## Claim theorems -/

/-- C1: for every year (at least 1, hence in particular 2000-2050),
`computeEaster` returns a date falling on a Sunday (JavaScript weekday 0),
and the spot-checked reference years give the known dates 2024-03-31,
2025-04-20 and 2026-04-05 (months 0-indexed). -/
theorem computeEaster_always_sunday_and_reference_dates :
    (∀ y : Nat, 1 ≤ y → getDay (computeEaster y) = 0) ∧
    computeEaster 2024 = ⟨2024, 2, 31⟩ ∧
    computeEaster 2025 = ⟨2025, 3, 20⟩ ∧
    computeEaster 2026 = ⟨2026, 3, 5⟩ :=
  ⟨fun y hy => (computeEaster_spec y hy).2.2.2, by decide, by decide, by decide⟩

/-- C1 witness: the Sunday property evaluated at the concrete year 2033. -/
theorem computeEaster_always_sunday_witness :
    1 ≤ 2033 ∧ getDay (computeEaster 2033) = 0 :=
  ⟨by decide, computeEaster_always_sunday_and_reference_dates.1 2033 (by decide)⟩

/-- C7: for every year (at least 1, hence in particular 2000-2050),
`computeAdventSunday` returns a Sunday of that year lying in the window
November 27 - December 3 inclusive (months 0-indexed: month 10 days 27-30
or month 11 days 1-3), shifted from November 30 by at most 3 days in
either direction (hence the Sunday nearest November 30). -/
theorem computeAdventSunday_sunday_in_window (y : Nat) (hy : 1 ≤ y) :
    getDay (computeAdventSunday y) = 0 ∧
    (computeAdventSunday y).year = y ∧
    (((computeAdventSunday y).month = 10 ∧ 27 ≤ (computeAdventSunday y).day ∧
        (computeAdventSunday y).day ≤ 30) ∨
      ((computeAdventSunday y).month = 11 ∧ 1 ≤ (computeAdventSunday y).day ∧
        (computeAdventSunday y).day ≤ 3)) ∧
    (daysBetween ⟨y, 10, 30⟩ (computeAdventSunday y)).natAbs ≤ 3 := by
  obtain ⟨hv, hyr, hsun, hlo, hhi, hnear⟩ := computeAdventSunday_spec y hy
  refine ⟨hsun, hyr, ?_, hnear⟩
  have hw : getDay ⟨y, 10, 30⟩ < 7 := Nat.mod_lt _ (by omega)
  unfold computeAdventSunday
  rcases le_or_lt (getDay ⟨y, 10, 30⟩) 3 with h3 | h3
  · simp only [h3, if_true]
    left
    refine ⟨by simp, ?_, ?_⟩ <;> (try simp only [day_mk]) <;> omega
  · simp only [show ¬ getDay ⟨y, 10, 30⟩ ≤ 3 by omega, if_false]
    right
    refine ⟨by simp, ?_, ?_⟩ <;> (try simp only [day_mk]) <;> omega

/-- C7 witness: evaluated at the concrete year 2026 (Advent Sunday
2026-11-29). -/
theorem computeAdventSunday_sunday_in_window_witness :
    1 ≤ 2026 ∧ getDay (computeAdventSunday 2026) = 0 ∧
      computeAdventSunday 2026 = ⟨2026, 10, 29⟩ :=
  ⟨by decide, (computeAdventSunday_sunday_in_window 2026 (by decide)).1, by decide⟩

/-- Shared bound: the psalter cycle day of a valid date lies in 1-30. -/
theorem getPsalterDayNumber_bounds (d : Date) (hv : Valid d) :
    1 ≤ getPsalterDayNumber d ∧ getPsalterDayNumber d ≤ 30 := by
  obtain ⟨hm, hd1, hd2⟩ := hv
  unfold getPsalterDayNumber
  by_cases h1 : d.month = 1
  · simp only [h1, if_true]
    by_cases h2 : d.day = daysInMonth d.year 1
    · simp [h2]
    · simp only [h2, if_false]
      omega
  · simp only [h1, if_false]
    omega

/-- C4: the psalter cycle day equals the day-of-month except that day 31
maps to 30 and the last day of February (28 in common years, 29 in leap
years) maps to 30; Feb 28 of a leap year maps to 28, and the result always
lies in 1-30.  Month 1 is February (0-indexed). -/
theorem getPsalterDayNumber_rules (d : Date) (hv : Valid d) :
    (d.day = 31 → getPsalterDayNumber d = 30) ∧
    (d.month = 1 → d.day = daysInMonth d.year 1 → getPsalterDayNumber d = 30) ∧
    (d.month = 1 → isLeapYear d.year = false → d.day = 28 → getPsalterDayNumber d = 30) ∧
    (d.month = 1 → isLeapYear d.year = true → d.day = 29 → getPsalterDayNumber d = 30) ∧
    (d.month = 1 → isLeapYear d.year = true → d.day = 28 → getPsalterDayNumber d = 28) ∧
    (¬ (d.day = 31 ∨ (d.month = 1 ∧ d.day = daysInMonth d.year 1)) →
      getPsalterDayNumber d = d.day) ∧
    1 ≤ getPsalterDayNumber d ∧ getPsalterDayNumber d ≤ 30 := by
  obtain ⟨hb1, hb2⟩ := getPsalterDayNumber_bounds d hv
  obtain ⟨hm, hd1, hd2⟩ := hv
  refine ⟨?_, ?_, ?_, ?_, ?_, ?_, hb1, hb2⟩
  · intro h31
    unfold getPsalterDayNumber
    by_cases h1 : d.month = 1
    · exfalso
      rw [h1] at hd2
      have : daysInMonth d.year 1 ≤ 29 := by
        unfold daysInMonth
        rcases Bool.eq_false_or_eq_true (isLeapYear d.year) with hL | hL <;> simp [hL]
      omega
    · simp only [h1, if_false]; omega
  · intro h1 h2
    unfold getPsalterDayNumber
    simp [h1, h2]
  · intro h1 hL h28
    have : daysInMonth d.year 1 = 28 := by unfold daysInMonth; simp [hL]
    unfold getPsalterDayNumber
    simp [h1, h28, this]
  · intro h1 hL h29
    have : daysInMonth d.year 1 = 29 := by unfold daysInMonth; simp [hL]
    unfold getPsalterDayNumber
    simp [h1, h29, this]
  · intro h1 hL h28
    have h29 : daysInMonth d.year 1 = 29 := by unfold daysInMonth; simp [hL]
    unfold getPsalterDayNumber
    simp only [h1, if_true, h28, h29]
    simp
  · intro hno
    unfold getPsalterDayNumber
    have h31 : d.day ≠ 31 := fun hc => hno (Or.inl hc)
    by_cases h1 : d.month = 1
    · have hne : ¬ d.day = daysInMonth d.year 1 := fun hc => hno (Or.inr ⟨h1, hc⟩)
      rw [h1] at hd2
      have : daysInMonth d.year 1 ≤ 29 := by
        unfold daysInMonth
        rcases Bool.eq_false_or_eq_true (isLeapYear d.year) with hL | hL <;> simp [hL]
      simp only [h1, if_true, hne, if_false]
      omega
    · have hle := daysInMonth_le d.year d.month
      simp only [h1, if_false]
      omega

/-- C4 witness: the rules evaluated at Feb 28, 2024 (a leap year), which
must map to 28, not 30. -/
theorem getPsalterDayNumber_rules_witness :
    Valid ⟨2024, 1, 28⟩ ∧ getPsalterDayNumber ⟨2024, 1, 28⟩ = 28 :=
  ⟨by decide,
    (getPsalterDayNumber_rules ⟨2024, 1, 28⟩ (by decide)).2.2.2.2.1 rfl (by decide) rfl⟩

/-- C5: the five Psalm-119 division entries, in cycle order, are the keys
24-evening through 26-evening, and every verse 1-176 lies in exactly one
of the five ranges (no gap, no overlap) while no other verse does. -/
theorem psalm119_divisions_partition :
    PSALM_119_DIVISIONS.map Prod.fst =
      ["24-evening", "25-morning", "25-evening", "26-morning", "26-evening"] ∧
    (∀ v : Nat, 1 ≤ v → v ≤ 176 →
      PSALM_119_DIVISIONS.countP
        (fun e => decide (e.2.startVerse ≤ v) && decide (v ≤ e.2.endVerse)) = 1) ∧
    (∀ v : Nat, 176 < v →
      PSALM_119_DIVISIONS.countP
        (fun e => decide (e.2.startVerse ≤ v) && decide (v ≤ e.2.endVerse)) = 0) := by
  refine ⟨by decide, ?_, ?_⟩
  · have hall : ((List.range 176).all fun i =>
        PSALM_119_DIVISIONS.countP
          (fun e => decide (e.2.startVerse ≤ i + 1) && decide (i + 1 ≤ e.2.endVerse)) == 1)
        = true := by decide
    intro v h1 h2
    have hmem : v - 1 ∈ List.range 176 := List.mem_range.mpr (by omega)
    have := List.all_eq_true.mp hall (v - 1) hmem
    rw [show v - 1 + 1 = v by omega] at this
    simpa using this
  · intro v hv
    rw [List.countP_eq_zero]
    intro e he
    have hend : e.2.endVerse ≤ 176 := by
      fin_cases he <;> decide
    simp only [Bool.and_eq_true, decide_eq_true_eq]
    omega

/-- C5 witness: the partition property evaluated at verse 104 (the boundary
between the 25-evening and 26-morning ranges). -/
theorem psalm119_divisions_partition_witness :
    PSALM_119_DIVISIONS.countP
      (fun e => decide (e.2.startVerse ≤ 104) && decide (104 ≤ e.2.endVerse)) = 1 :=
  psalm119_divisions_partition.2.1 104 (by decide) (by decide)

/-- C10: for every valid date and either session, `getPsalmsForDay` returns
a non-empty list of psalm numbers in 1-150, and the table lookup that the
empty-list guard protects always succeeds (the guard branch is
unreachable). -/
theorem getPsalmsForDay_nonempty_in_range (d : Date) (s : Session) (hv : Valid d) :
    getPsalmsForDay d s ≠ [] ∧
    (∀ p ∈ getPsalmsForDay d s, 1 ≤ p ∧ p ≤ 150) ∧
    (PSALTER_30_DAY.get? (getPsalterDayNumber d - 1)).isSome = true := by
  obtain ⟨hb1, hb2⟩ := getPsalterDayNumber_bounds d hv
  obtain ⟨n, hn, hlt⟩ : ∃ n, getPsalterDayNumber d - 1 = n ∧ n < 30 :=
    ⟨getPsalterDayNumber d - 1, rfl, by omega⟩
  simp only [getPsalmsForDay, hn]
  interval_cases n <;> rcases s <;> refine ⟨by decide, ?_, by decide⟩ <;>
    intro p hp <;> fin_cases hp <;> decide

/-- C10 witness: evaluated at January 19, 2026, morning (psalter day 19). -/
theorem getPsalmsForDay_nonempty_in_range_witness :
    Valid ⟨2026, 0, 19⟩ ∧ getPsalmsForDay ⟨2026, 0, 19⟩ Session.morning ≠ [] :=
  ⟨by decide, (getPsalmsForDay_nonempty_in_range ⟨2026, 0, 19⟩ Session.morning (by decide)).1⟩

/-- C9: round-trip of the sequential plan-day mapping: whenever
`computePlanDay` returns a plan day `n`, adding `n - 1` days to the start
date recovers the current date. -/
theorem computePlanDay_roundtrip (start cur : Date) (totalDays : Int) (n : Int)
    (hvs : Valid start) (hvc : Valid cur) (hys : 1 ≤ start.year) (hyc : 1 ≤ cur.year)
    (h : computePlanDay start cur totalDays = some n) :
    addDays start (n - 1) = cur := by
  unfold computePlanDay at h
  by_cases h1 : daysBetween start cur + 1 < 1
  · simp [h1] at h
  · by_cases h2 : daysBetween start cur + 1 > totalDays
    · simp [h1, h2] at h
    · simp [h1, h2] at h
      have hn : n - 1 = daysBetween start cur := by omega
      rw [hn]
      unfold daysBetween at *
      obtain ⟨hv', hy', hrd'⟩ :=
        addDays_spec start ((rd cur : Int) - (rd start : Int)) hvs hys (Or.inl (by omega))
      exact rd_inj _ _ hv' hvc hy' hyc (by omega)

/-- C9 witness: start 2025-01-01, current 2025-01-05, a 365-day plan; the
computed plan day is 5 and adding 4 days to the start recovers Jan 5. -/
theorem computePlanDay_roundtrip_witness :
    computePlanDay ⟨2025, 0, 1⟩ ⟨2025, 0, 5⟩ 365 = some 5 ∧
      addDays ⟨2025, 0, 1⟩ (5 - 1) = ⟨2025, 0, 5⟩ :=
  ⟨by decide,
    computePlanDay_roundtrip ⟨2025, 0, 1⟩ ⟨2025, 0, 5⟩ 365 5
      (by decide) (by decide) (by decide) (by decide) (by decide)⟩

/-- The day-of-year helper equals the ordinal day within the year. -/
theorem dayOfYear_eq (d : Date) : dayOfYear d = (ordinalInYear d : Int) := by
  unfold dayOfYear daysBetween rd
  have h1 : ordinalInYear ⟨d.year, 0, 1⟩ = 1 := by
    rw [ordinalInYear_mk_early d.year 0 1 (by omega)]
    rfl
  simp only [year_mk]
  omega

/-- C8: the legacy (no-anchor) M'Cheyne plan-day derivation equals
day-of-year with the leap-year correction: Feb 29 of a leap year derives
the same day number as Feb 28; every later date of a leap year derives
day-of-year minus one; all other dates derive day-of-year unchanged; and
the result is clamped into 1..365 (the table's maximum length).  Month 1
is February (0-indexed). -/
theorem mcheyneDayNumber_legacy_rules (d : Date) (hv : Valid d) (hy : 1 ≤ d.year) :
    (isLeapYear d.year = true → d.month = 1 → d.day = 29 →
      mcheyneDayNumber d none = mcheyneDayNumber ⟨d.year, 1, 28⟩ none) ∧
    (isLeapYear d.year = true → 2 ≤ d.month →
      mcheyneDayNumber d none = dayOfYear d - 1) ∧
    (isLeapYear d.year = false ∨ d.month = 0 ∨ (d.month = 1 ∧ d.day ≤ 28) →
      mcheyneDayNumber d none = dayOfYear d) ∧
    1 ≤ mcheyneDayNumber d none ∧ mcheyneDayNumber d none ≤ 365 := by
  have hdoy := dayOfYear_eq d
  obtain ⟨ho1, ho2⟩ := ordinalInYear_bounds d hv
  have hms := ordinalInYear_eq_monthStart d
  obtain ⟨hm11, hd1, hd2⟩ := hv
  have hdoy28 : dayOfYear ⟨d.year, 1, 28⟩ = 59 := by
    rw [dayOfYear_eq]
    rw [ordinalInYear_mk_early d.year 1 28 (by omega)]
    rfl
  refine ⟨?_, ?_, ?_, ?_⟩
  · intro hL hm hday
    have hb : (isLeapYear d.year && d.month == 1 && d.day == 29) = true := by
      simp [hL, hm, hday]
    simp only [mcheyneDayNumber, hb, if_true, hdoy28]
    norm_num
  · intro hL hm
    have hmono : 60 ≤ monthStart (isLeapYear d.year) d.month := by
      rcases Nat.eq_or_lt_of_le hm with he | hlt
      · rw [← he, hL]; decide
      · have := monthStart_strict_mono (isLeapYear d.year) 2 d.month hlt hm11
        rw [hL] at this ⊢
        have h2 : monthStart true 2 = 60 := by decide
        omega
    have h61 : 61 ≤ ordinalInYear d := by omega
    have hb : (isLeapYear d.year && d.month == 1 && d.day == 29) = false := by
      have : d.month ≠ 1 := by omega
      simp [this]
    have hb2 : (isLeapYear d.year && dayOfYear d > 60) = true := by
      simp [hL]
      omega
    simp only [mcheyneDayNumber, hb, Bool.false_eq_true, if_false, hb2, if_true]
    have hbump : leapBump d.year = 1 := by unfold leapBump; rw [hL]; rfl
    omega
  · intro hcase
    have hb : (isLeapYear d.year && d.month == 1 && d.day == 29) = false := by
      rcases hcase with hL | hm | ⟨hm, hday⟩
      · simp [hL]
      · have : d.month ≠ 1 := by omega
        simp [this]
      · have : d.day ≠ 29 := by omega
        simp [this]
    have hle60 : isLeapYear d.year = true → ordinalInYear d ≤ 60 := by
      intro hL
      rcases hcase with hL' | hm | ⟨hm, hday⟩
      · rw [hL'] at hL; exact absurd hL (by simp)
      · have h31 : daysInMonth d.year 0 = 31 := rfl
        rw [hm] at hd2
        have hms0 : monthStart (isLeapYear d.year) 0 = 0 := by
          simp [monthStart, daysBeforeMonth]
        rw [hms, hm]
        omega
      · have hms1 : monthStart (isLeapYear d.year) 1 = 31 := by
          simp [monthStart, daysBeforeMonth]
        rw [hms, hm]
        omega
    have hb2 : (isLeapYear d.year && dayOfYear d > 60) = false := by
      rcases Bool.eq_false_or_eq_true (isLeapYear d.year) with hL | hL
      · have := hle60 hL
        simp [hL]
        omega
      · simp [hL]
    have hle365 : ordinalInYear d ≤ 365 := by
      rcases Bool.eq_false_or_eq_true (isLeapYear d.year) with hL | hL
      · have := hle60 hL; omega
      · unfold leapBump at ho2; rw [hL] at ho2; simp at ho2; omega
    simp only [mcheyneDayNumber, hb, Bool.false_eq_true, if_false, hb2]
    omega
  · unfold mcheyneDayNumber
    rcases Bool.eq_false_or_eq_true (isLeapYear d.year && d.month == 1 && d.day == 29)
      with hb | hb
    · simp only [hb, if_true]
      rw [hdoy28]
      have h59 : (decide ((59 : Int) > 60)) = false := by decide
      simp only [h59, Bool.and_false, Bool.false_eq_true, if_false]
      omega
    · simp only [hb, Bool.false_eq_true, if_false]
      rcases Bool.eq_false_or_eq_true (isLeapYear d.year && dayOfYear d > 60) with hb2 | hb2
      · have h61 : (60 : Int) < dayOfYear d := by
          have h' := hb2
          simp only [Bool.and_eq_true, decide_eq_true_eq] at h'
          exact h'.2
        simp only [hb2, if_true]
        omega
      · simp only [hb2, Bool.false_eq_true, if_false]
        omega

/-- C8 witness: evaluated at March 1, 2024 (a leap year): the derived day
number is 60, one less than the day-of-year 61. -/
theorem mcheyneDayNumber_legacy_rules_witness :
    Valid ⟨2024, 2, 1⟩ ∧ mcheyneDayNumber ⟨2024, 2, 1⟩ none = dayOfYear ⟨2024, 2, 1⟩ - 1 :=
  ⟨by decide,
    (mcheyneDayNumber_legacy_rules ⟨2024, 2, 1⟩ (by decide) (by decide)).2.1 rfl (by decide)⟩

/-- A sample reading reference for instantiating lectionary tables. -/
def sampleRef : ReadingRef := ⟨"Genesis", 1, none, 1, none⟩

/-- A second sample reading reference. -/
def sampleRef2 : ReadingRef := ⟨"Matthew", 1, none, 1, none⟩

/-- A sample M'Cheyne table of the documented shape: days 1-365, each with
two non-empty readings per session (the shipped `mcheyne.json` is keyed by
plan day 1-365 with non-empty readings). -/
def mcheyneSampleTable : List McheyneEntry :=
  (List.range 365).map (fun i => ⟨(i : Int) + 1, [sampleRef, sampleRef2], [sampleRef, sampleRef2]⟩)

/-- C6 counterexample: on a sequential M'Cheyne table whose last day is 365,
an above-range plan-day number (400) does NOT yield empty readings: the
final `Math.min(doy, 365)` clamp maps it to day 365, whose entry is
returned. -/
theorem resolveMcheyne_above_range_not_empty :
    resolveMcheyne (some mcheyneSampleTable) ⟨2025, 0, 1⟩ Session.morning (some 400)
      = ⟨[sampleRef], [sampleRef2]⟩ ∧
    resolveMcheyne (some mcheyneSampleTable) ⟨2025, 0, 1⟩ Session.morning (some 400)
      ≠ ⟨[], []⟩ := by
  constructor <;> decide

/-- C6 amended: for a plan-day number below 1 both sequential resolvers
return empty readings (given the documented table shape with positive day
keys); for a plan-day above 365 `resolveMcheyne` clamps to day 365 and
returns that day's entry instead of empty readings, while
`resolveBibleProject` returns empty readings for any plan-day absent from
its table; no resolver ever throws (all are total functions). -/
theorem resolveSequential_out_of_range (mc : List McheyneEntry)
    (bp : List BibleProjectEntry) (d : Date) (s : Session) (p : Int)
    (hmc : ∀ e ∈ mc, 1 ≤ e.day) (hbp : ∀ e ∈ bp, 1 ≤ e.day) :
    (p < 1 → resolveMcheyne (some mc) d s (some p) = ⟨[], []⟩) ∧
    (p < 1 → resolveBibleProject (some bp) (some p) = ⟨[], []⟩) ∧
    (365 < p →
      resolveMcheyne (some mc) d s (some p) = resolveMcheyne (some mc) d s (some 365)) ∧
    ((∀ e ∈ bp, e.day ≠ p) → resolveBibleProject (some bp) (some p) = ⟨[], []⟩) := by
  refine ⟨?_, ?_, ?_, ?_⟩
  · intro hp
    have hday : mcheyneDayNumber d (some p) = p := by
      simp only [mcheyneDayNumber]
      omega
    have hfind : mc.find? (fun e => e.day == mcheyneDayNumber d (some p)) = none := by
      rw [List.find?_eq_none]
      intro e he
      have := hmc e he
      rw [hday]
      simp only [beq_iff_eq]
      omega
    simp only [resolveMcheyne, hfind]
  · intro hp
    have hfind : bp.find? (fun e => e.day == p) = none := by
      rw [List.find?_eq_none]
      intro e he
      have := hbp e he
      simp only [beq_iff_eq]
      omega
    simp only [resolveBibleProject, hfind]
  · intro hp
    have hday : mcheyneDayNumber d (some p) = mcheyneDayNumber d (some 365) := by
      simp only [mcheyneDayNumber]
      omega
    simp only [resolveMcheyne, hday]
  · intro hne
    have hfind : bp.find? (fun e => e.day == p) = none := by
      rw [List.find?_eq_none]
      intro e he
      have := hne e he
      simp only [beq_iff_eq]
      omega
    simp only [resolveBibleProject, hfind]

/-- C6 amended witness: evaluated on concrete one-entry tables with
plan-day 0 (below range) and, for BibleProject, plan-day 400 (absent). -/
theorem resolveSequential_out_of_range_witness :
    resolveMcheyne (some [⟨1, [sampleRef], [sampleRef]⟩]) ⟨2025, 0, 1⟩ Session.morning
        (some 0) = ⟨[], []⟩ ∧
    resolveBibleProject (some [⟨1, "Gospels", [sampleRef], sampleRef2⟩]) (some 400)
      = ⟨[], []⟩ :=
  ⟨(resolveSequential_out_of_range [⟨1, [sampleRef], [sampleRef]⟩]
      [⟨1, "Gospels", [sampleRef], sampleRef2⟩] ⟨2025, 0, 1⟩ Session.morning 0
      (by decide) (by decide)).1 (by decide),
   (resolveSequential_out_of_range [⟨1, [sampleRef], [sampleRef]⟩]
      [⟨1, "Gospels", [sampleRef], sampleRef2⟩] ⟨2025, 0, 1⟩ Session.morning 400
      (by decide) (by decide)).2.2.2 (by decide)⟩

set_option maxHeartbeats 1000000 in
/-- C3: precedence in `resolveLiturgicalDay`.  If the date matches one of
the checked moveable feasts, the resolved name, rank and collect key are
the moveable feast's, regardless of any fixed-table match or Sunday
status.  Otherwise, a matching fixed holy day supplies name, rank and
collect key, unless the date is a Sunday and the fixed day's rank is
minor, in which case the ordinary identity (the season/week name from
`formatDayName` and the composite collect key from `computeCollectId`) is
kept and the output is not a minor holy day. -/
theorem resolveLiturgicalDay_precedence (d : Date) :
    (∀ n c r, moveableFeastMatch d (computeMoveableFeasts d.year) = some (n, c, r) →
      (resolveLiturgicalDay d).name = n ∧
      (resolveLiturgicalDay d).collectId = c ∧
      (resolveLiturgicalDay d).holyDayRank = some r ∧
      (resolveLiturgicalDay d).isHolyDay = true) ∧
    (∀ hd, moveableFeastMatch d (computeMoveableFeasts d.year) = none →
      FIXED_HOLY_DAYS.find? (fun h => h.month == d.month && h.day == d.day) = some hd →
      ((getDay d == 0 && hd.rank == HolyDayRank.minor) = true →
        (resolveLiturgicalDay d).name =
          formatDayName (resolveLiturgicalDay d).season
            (resolveLiturgicalDay d).weekOfSeason (resolveLiturgicalDay d).dayOfWeek ∧
        (resolveLiturgicalDay d).collectId =
          computeCollectId (resolveLiturgicalDay d).season
            (resolveLiturgicalDay d).weekOfSeason ∧
        (resolveLiturgicalDay d).holyDayRank = none ∧
        (resolveLiturgicalDay d).isHolyDay = false) ∧
      ((getDay d == 0 && hd.rank == HolyDayRank.minor) = false →
        (resolveLiturgicalDay d).name = hd.name ∧
        (resolveLiturgicalDay d).collectId = hd.collectId ∧
        (resolveLiturgicalDay d).holyDayRank = some hd.rank ∧
        (resolveLiturgicalDay d).isHolyDay = true)) := by
  constructor
  · intro n c r hm
    unfold resolveLiturgicalDay
    rw [hm, applyPrecedence_moveable]
    exact ⟨rfl, rfl, rfl, rfl⟩
  · intro hd hm hf
    unfold resolveLiturgicalDay
    rw [hm, hf]
    constructor <;> intro hcond
    · rw [applyPrecedence_fixed_yields _ _ _ hcond]
      exact baseLiturgicalDay_fields d
    · rw [applyPrecedence_fixed_wins _ _ _ hcond]
      exact ⟨rfl, rfl, rfl, rfl⟩

/-- C3 witness: evaluated at Easter Day 2026 (April 5): the moveable feast
supplies the resolved name and principal rank. -/
theorem resolveLiturgicalDay_precedence_witness :
    (resolveLiturgicalDay ⟨2026, 3, 5⟩).name = "Easter Day" ∧
    (resolveLiturgicalDay ⟨2026, 3, 5⟩).holyDayRank = some HolyDayRank.principal :=
  ⟨((resolveLiturgicalDay_precedence ⟨2026, 3, 5⟩).1 "Easter Day" "easter-day"
      HolyDayRank.principal (by decide)).1,
   ((resolveLiturgicalDay_precedence ⟨2026, 3, 5⟩).1 "Easter Day" "easter-day"
      HolyDayRank.principal (by decide)).2.2.1⟩

end TwiceDaily

namespace TwiceDaily

/-- Day count, ordinal window, validity and year of the computed Easter date. -/
theorem easterRd_bounds (y : Nat) (hy : 1 ≤ y) :
    rd (computeEaster y) = daysBeforeYear y + ordinalInYear (computeEaster y) ∧
    81 + leapBump y ≤ ordinalInYear (computeEaster y) ∧
    ordinalInYear (computeEaster y) ≤ 115 + leapBump y ∧
    Valid (computeEaster y) ∧ 1 ≤ (computeEaster y).year := by
  obtain ⟨hEy, hEv, hEord, hEsun⟩ := computeEaster_spec y hy
  obtain ⟨hX1, hX2⟩ := easterX_bounds y
  refine ⟨by unfold rd; rw [hEy], by omega, by omega, hEv, by rw [hEy]; exact hy⟩

/-- Day count, ordinal window, validity and year of the computed Advent Sunday. -/
theorem adventRd_bounds (y : Nat) (hy : 1 ≤ y) :
    rd (computeAdventSunday y)
      = daysBeforeYear y + ordinalInYear (computeAdventSunday y) ∧
    331 + leapBump y ≤ ordinalInYear (computeAdventSunday y) ∧
    ordinalInYear (computeAdventSunday y) ≤ 337 + leapBump y ∧
    Valid (computeAdventSunday y) ∧ 1 ≤ (computeAdventSunday y).year := by
  obtain ⟨hAv, hAy, hAsun, hA1, hA2, hAnear⟩ := computeAdventSunday_spec y hy
  refine ⟨by unfold rd; rw [hAy], hA1, hA2, hAv, by rw [hAy]; exact hy⟩

theorem isDateInRange_iff (x a b : Date) :
    isDateInRange x a b = true ↔ ((rd a : Int) ≤ rd x ∧ (rd x : Int) ≤ rd b) := by
  unfold isDateInRange daysBetween
  simp only [Bool.and_eq_true, decide_eq_true_eq]
  omega

end TwiceDaily

namespace TwiceDaily

theorem season_cond1 (x : Date) (hy : 1 ≤ x.year) :
    isDateInRange x (addDays (computeEaster x.year) (-7)) (addDays (computeEaster x.year) (-1)) = true ↔
      ((ordinalInYear (computeEaster x.year) : Int) - 7 ≤ (ordinalInYear x : Int) ∧ (ordinalInYear x : Int) ≤ (ordinalInYear (computeEaster x.year) : Int) - 1) := by
  obtain ⟨hrdE, hEolo, hEohi, hEv, hEyy⟩ := easterRd_bounds x.year hy
  have hm7 := addDays_spec (computeEaster x.year) (-7) hEv hEyy (Or.inr (by omega))
  have hm1 := addDays_spec (computeEaster x.year) (-1) hEv hEyy (Or.inr (by omega))
  have hrdD : rd x = daysBeforeYear x.year + ordinalInYear x := rfl
  rw [isDateInRange_iff]
  omega

theorem season_cond2 (x : Date) (hy : 1 ≤ x.year) :
    isDateInRange x (addDays (computeEaster x.year) (-46)) (addDays (addDays (computeEaster x.year) (-7)) (-1)) = true ↔
      ((ordinalInYear (computeEaster x.year) : Int) - 46 ≤ (ordinalInYear x : Int) ∧ (ordinalInYear x : Int) ≤ (ordinalInYear (computeEaster x.year) : Int) - 8) := by
  obtain ⟨hrdE, hEolo, hEohi, hEv, hEyy⟩ := easterRd_bounds x.year hy
  have hm46 := addDays_spec (computeEaster x.year) (-46) hEv hEyy (Or.inr (by omega))
  have hm7 := addDays_spec (computeEaster x.year) (-7) hEv hEyy (Or.inr (by omega))
  have hm7e := addDays_spec (addDays (computeEaster x.year) (-7)) (-1)
    hm7.1 hm7.2.1 (Or.inr (by omega))
  have hrdD : rd x = daysBeforeYear x.year + ordinalInYear x := rfl
  rw [isDateInRange_iff]
  omega

theorem season_cond3 (x : Date) (hy : 1 ≤ x.year) :
    isDateInRange x (addDays (computeEaster x.year) (-63)) (addDays (addDays (computeEaster x.year) (-46)) (-1)) = true ↔
      ((ordinalInYear (computeEaster x.year) : Int) - 63 ≤ (ordinalInYear x : Int) ∧ (ordinalInYear x : Int) ≤ (ordinalInYear (computeEaster x.year) : Int) - 47) := by
  obtain ⟨hrdE, hEolo, hEohi, hEv, hEyy⟩ := easterRd_bounds x.year hy
  have hm63 := addDays_spec (computeEaster x.year) (-63) hEv hEyy (Or.inr (by omega))
  have hm46 := addDays_spec (computeEaster x.year) (-46) hEv hEyy (Or.inr (by omega))
  have hm46e := addDays_spec (addDays (computeEaster x.year) (-46)) (-1)
    hm46.1 hm46.2.1 (Or.inr (by omega))
  have hrdD : rd x = daysBeforeYear x.year + ordinalInYear x := rfl
  rw [isDateInRange_iff]
  omega

theorem season_cond4 (x : Date) (hy : 1 ≤ x.year) :
    isDateInRange x (computeEaster x.year) (addDays (addDays (computeEaster x.year) 39) (-1)) = true ↔
      ((ordinalInYear (computeEaster x.year) : Int) ≤ (ordinalInYear x : Int) ∧ (ordinalInYear x : Int) ≤ (ordinalInYear (computeEaster x.year) : Int) + 38) := by
  obtain ⟨hrdE, hEolo, hEohi, hEv, hEyy⟩ := easterRd_bounds x.year hy
  have hp39 := addDays_spec (computeEaster x.year) 39 hEv hEyy (Or.inl (by norm_num))
  have hp39e := addDays_spec (addDays (computeEaster x.year) 39) (-1)
    hp39.1 hp39.2.1 (Or.inr (by omega))
  have hrdD : rd x = daysBeforeYear x.year + ordinalInYear x := rfl
  rw [isDateInRange_iff]
  omega

theorem season_cond5 (x : Date) (hy : 1 ≤ x.year) :
    isDateInRange x (addDays (computeEaster x.year) 39) (addDays (addDays (computeEaster x.year) 49) (-1)) = true ↔
      ((ordinalInYear (computeEaster x.year) : Int) + 39 ≤ (ordinalInYear x : Int) ∧ (ordinalInYear x : Int) ≤ (ordinalInYear (computeEaster x.year) : Int) + 48) := by
  obtain ⟨hrdE, hEolo, hEohi, hEv, hEyy⟩ := easterRd_bounds x.year hy
  have hp39 := addDays_spec (computeEaster x.year) 39 hEv hEyy (Or.inl (by norm_num))
  have hp49 := addDays_spec (computeEaster x.year) 49 hEv hEyy (Or.inl (by norm_num))
  have hp49e := addDays_spec (addDays (computeEaster x.year) 49) (-1)
    hp49.1 hp49.2.1 (Or.inr (by omega))
  have hrdD : rd x = daysBeforeYear x.year + ordinalInYear x := rfl
  rw [isDateInRange_iff]
  omega

theorem season_cond6 (x : Date) (hy : 1 ≤ x.year) :
    isDateInRange x (addDays (computeEaster x.year) 49) (addDays (addDays (computeEaster x.year) 56) (-1)) = true ↔
      ((ordinalInYear (computeEaster x.year) : Int) + 49 ≤ (ordinalInYear x : Int) ∧ (ordinalInYear x : Int) ≤ (ordinalInYear (computeEaster x.year) : Int) + 55) := by
  obtain ⟨hrdE, hEolo, hEohi, hEv, hEyy⟩ := easterRd_bounds x.year hy
  have hp49 := addDays_spec (computeEaster x.year) 49 hEv hEyy (Or.inl (by norm_num))
  have hp56 := addDays_spec (computeEaster x.year) 56 hEv hEyy (Or.inl (by norm_num))
  have hp56e := addDays_spec (addDays (computeEaster x.year) 56) (-1)
    hp56.1 hp56.2.1 (Or.inr (by omega))
  have hrdD : rd x = daysBeforeYear x.year + ordinalInYear x := rfl
  rw [isDateInRange_iff]
  omega

theorem season_cond7 (x : Date) (hy : 1 ≤ x.year) :
    isDateInRange x (addDays (computeEaster x.year) 56) (addDays (computeAdventSunday x.year) (-1)) = true ↔
      ((ordinalInYear (computeEaster x.year) : Int) + 56 ≤ (ordinalInYear x : Int) ∧ (ordinalInYear x : Int) ≤ (ordinalInYear (computeAdventSunday x.year) : Int) - 1) := by
  obtain ⟨hrdE, hEolo, hEohi, hEv, hEyy⟩ := easterRd_bounds x.year hy
  have hp56 := addDays_spec (computeEaster x.year) 56 hEv hEyy (Or.inl (by norm_num))
  obtain ⟨hrdA, hAlo, hAhi, hAv, hAyy⟩ := adventRd_bounds x.year hy
  have hAe := addDays_spec (computeAdventSunday x.year) (-1) hAv hAyy (Or.inr (by omega))
  have hrdD : rd x = daysBeforeYear x.year + ordinalInYear x := rfl
  rw [isDateInRange_iff]
  omega

theorem season_cond8 (x : Date) (hy : 1 ≤ x.year) :
    isDateInRange x (computeAdventSunday x.year) ⟨x.year, 11, 24⟩ = true ↔
      ((ordinalInYear (computeAdventSunday x.year) : Int) ≤ (ordinalInYear x : Int) ∧ (ordinalInYear x : Int) ≤ 358 + (leapBump x.year : Int)) := by
  obtain ⟨hrdA, hAlo, hAhi, hAv, hAyy⟩ := adventRd_bounds x.year hy
  have hd1124 : rd ⟨x.year, 11, 24⟩ = daysBeforeYear x.year + 358 + leapBump x.year := by
    have hdbm11 : daysBeforeMonth 11 = 334 := rfl
    unfold rd
    rw [ordinalInYear_mk_late x.year 11 24 (by omega)]
    simp only [year_mk]
    omega
  have hrdD : rd x = daysBeforeYear x.year + ordinalInYear x := rfl
  rw [isDateInRange_iff]
  omega

theorem season_cond9 (x : Date) (hy : 1 ≤ x.year) :
    isDateInRange x ⟨x.year, 11, 25⟩ ⟨x.year, 11, 31⟩ = true ↔
      (359 + (leapBump x.year : Int) ≤ (ordinalInYear x : Int) ∧ (ordinalInYear x : Int) ≤ 365 + (leapBump x.year : Int)) := by
  have hd1125 : rd ⟨x.year, 11, 25⟩ = daysBeforeYear x.year + 359 + leapBump x.year := by
    have hdbm11 : daysBeforeMonth 11 = 334 := rfl
    unfold rd
    rw [ordinalInYear_mk_late x.year 11 25 (by omega)]
    simp only [year_mk]
    omega
  have hd1131 : rd ⟨x.year, 11, 31⟩ = daysBeforeYear x.year + 365 + leapBump x.year := by
    have hdbm11 : daysBeforeMonth 11 = 334 := rfl
    unfold rd
    rw [ordinalInYear_mk_late x.year 11 31 (by omega)]
    simp only [year_mk]
    omega
  have hrdD : rd x = daysBeforeYear x.year + ordinalInYear x := rfl
  rw [isDateInRange_iff]
  omega

theorem season_cond10 (x : Date) (hy : 1 ≤ x.year) :
    isDateInRange x ⟨x.year, 0, 1⟩ ⟨x.year, 0, 5⟩ = true ↔
      ((1 : Int) ≤ (ordinalInYear x : Int) ∧ (ordinalInYear x : Int) ≤ 5) := by
  have hd0101 : rd ⟨x.year, 0, 1⟩ = daysBeforeYear x.year + 1 := by
    have hdbm0 : daysBeforeMonth 0 = 0 := rfl
    unfold rd
    rw [ordinalInYear_mk_early x.year 0 1 (by omega)]
    simp only [year_mk]
    omega
  have hd0105 : rd ⟨x.year, 0, 5⟩ = daysBeforeYear x.year + 5 := by
    have hdbm0 : daysBeforeMonth 0 = 0 := rfl
    unfold rd
    rw [ordinalInYear_mk_early x.year 0 5 (by omega)]
    simp only [year_mk]
    omega
  have hrdD : rd x = daysBeforeYear x.year + ordinalInYear x := rfl
  rw [isDateInRange_iff]
  omega

theorem season_cond11 (x : Date) (hy : 1 ≤ x.year) :
    isDateInRange x ⟨x.year, 0, 6⟩ (addDays (addDays (computeEaster x.year) (-63)) (-1)) = true ↔
      ((6 : Int) ≤ (ordinalInYear x : Int) ∧ (ordinalInYear x : Int) ≤ (ordinalInYear (computeEaster x.year) : Int) - 64) := by
  obtain ⟨hrdE, hEolo, hEohi, hEv, hEyy⟩ := easterRd_bounds x.year hy
  have hm63 := addDays_spec (computeEaster x.year) (-63) hEv hEyy (Or.inr (by omega))
  have hm63e := addDays_spec (addDays (computeEaster x.year) (-63)) (-1)
    hm63.1 hm63.2.1 (Or.inr (by omega))
  have hd0106 : rd ⟨x.year, 0, 6⟩ = daysBeforeYear x.year + 6 := by
    have hdbm0 : daysBeforeMonth 0 = 0 := rfl
    unfold rd
    rw [ordinalInYear_mk_early x.year 0 6 (by omega)]
    simp only [year_mk]
    omega
  have hrdD : rd x = daysBeforeYear x.year + ordinalInYear x := rfl
  rw [isDateInRange_iff]
  omega

end TwiceDaily

namespace TwiceDaily

theorem determineSeasonOpt_some_spec (date : Date) (f : MoveableFeasts)
    (s : LiturgicalSeason) (h : determineSeasonOpt date f = some s) :
    determineSeason date f = s ∧ seasonMatch date f s = true := by
  simp only [determineSeasonOpt] at h
  simp only [determineSeason]
  by_cases k1 : isDateInRange date f.palmSunday (addDays f.easterDay (-1)) = true
  · rw [if_pos k1] at h ⊢
    obtain rfl := Option.some.inj h
    exact ⟨rfl, by simp only [seasonMatch]; exact k1⟩
  rw [if_neg k1] at h ⊢
  by_cases k2 : isDateInRange date f.ashWednesday (addDays f.palmSunday (-1)) = true
  · rw [if_pos k2] at h ⊢
    obtain rfl := Option.some.inj h
    exact ⟨rfl, by simp only [seasonMatch]; exact k2⟩
  rw [if_neg k2] at h ⊢
  by_cases k3 : isDateInRange date f.septuagesima (addDays f.ashWednesday (-1)) = true
  · rw [if_pos k3] at h ⊢
    obtain rfl := Option.some.inj h
    exact ⟨rfl, by simp only [seasonMatch]; exact k3⟩
  rw [if_neg k3] at h ⊢
  by_cases k4 : isDateInRange date f.easterDay (addDays f.ascensionDay (-1)) = true
  · rw [if_pos k4] at h ⊢
    obtain rfl := Option.some.inj h
    exact ⟨rfl, by simp only [seasonMatch]; exact k4⟩
  rw [if_neg k4] at h ⊢
  by_cases k5 : isDateInRange date f.ascensionDay (addDays f.whitsunday (-1)) = true
  · rw [if_pos k5] at h ⊢
    obtain rfl := Option.some.inj h
    exact ⟨rfl, by simp only [seasonMatch]; exact k5⟩
  rw [if_neg k5] at h ⊢
  by_cases k6 : isDateInRange date f.whitsunday (addDays f.trinitySunday (-1)) = true
  · rw [if_pos k6] at h ⊢
    obtain rfl := Option.some.inj h
    exact ⟨rfl, by simp only [seasonMatch]; exact k6⟩
  rw [if_neg k6] at h ⊢
  by_cases k7 : isDateInRange date f.trinitySunday (addDays f.adventSunday (-1)) = true
  · rw [if_pos k7] at h ⊢
    obtain rfl := Option.some.inj h
    exact ⟨rfl, by simp only [seasonMatch]; exact k7⟩
  rw [if_neg k7] at h ⊢
  by_cases k8 : isDateInRange date f.adventSunday ⟨date.year, 11, 24⟩ = true
  · rw [if_pos k8] at h ⊢
    obtain rfl := Option.some.inj h
    exact ⟨rfl, by simp only [seasonMatch]; exact k8⟩
  rw [if_neg k8] at h ⊢
  by_cases k9 : isDateInRange date (⟨date.year, 11, 25⟩ : Date) ⟨date.year, 11, 31⟩ = true
  · rw [if_pos k9] at h ⊢
    obtain rfl := Option.some.inj h
    exact ⟨rfl, by simp only [seasonMatch, Bool.or_eq_true]; exact Or.inl k9⟩
  rw [if_neg k9] at h ⊢
  by_cases k10 : isDateInRange date (⟨date.year, 0, 1⟩ : Date) ⟨date.year, 0, 5⟩ = true
  · rw [if_pos k10] at h ⊢
    obtain rfl := Option.some.inj h
    exact ⟨rfl, by simp only [seasonMatch, Bool.or_eq_true]; exact Or.inr k10⟩
  rw [if_neg k10] at h ⊢
  by_cases k11 : isDateInRange date f.epiphany (addDays f.septuagesima (-1)) = true
  · rw [if_pos k11] at h ⊢
    obtain rfl := Option.some.inj h
    exact ⟨rfl, by simp only [seasonMatch]; exact k11⟩
  rw [if_neg k11] at h ⊢
  exact Option.noConfusion h

set_option maxHeartbeats 1600000 in
/-- C2: for every valid date (against its own year's feast set) the eleven ordered
range tests of `determineSeason` single out exactly one of the ten season tags
(`seasonMatch` holds for exactly one season), the season the cascade returns is the
one whose range test holds, and the final fallback branch is unreachable
(`determineSeasonOpt` never returns `none`). -/
theorem determineSeason_partition (d : Date) (hv : Valid d) (hy : 1 ≤ d.year) :
    (∃! s, seasonMatch d (computeMoveableFeasts d.year) s = true) ∧
    seasonMatch d (computeMoveableFeasts d.year)
      (determineSeason d (computeMoveableFeasts d.year)) = true ∧
    determineSeasonOpt d (computeMoveableFeasts d.year)
      = some (determineSeason d (computeMoveableFeasts d.year)) := by
  -- the feast record, unfolded once
  have hMF : computeMoveableFeasts d.year =
      { septuagesima := addDays (computeEaster d.year) (-63)
        sexagesima := addDays (computeEaster d.year) (-56)
        quinquagesima := addDays (computeEaster d.year) (-49)
        ashWednesday := addDays (computeEaster d.year) (-46)
        palmSunday := addDays (computeEaster d.year) (-7)
        goodFriday := addDays (computeEaster d.year) (-2)
        easterDay := computeEaster d.year
        easterMonday := addDays (computeEaster d.year) 1
        ascensionDay := addDays (computeEaster d.year) 39
        whitsunday := addDays (computeEaster d.year) 49
        whitMonday := addDays (computeEaster d.year) 50
        trinitySunday := addDays (computeEaster d.year) 56
        adventSunday := computeAdventSunday d.year
        christmasDay := ⟨d.year, 11, 25⟩
        epiphany := ⟨d.year, 0, 6⟩ } := rfl
  have hED : (computeMoveableFeasts d.year).easterDay = computeEaster d.year := by
    rw [hMF]
  have hPS : (computeMoveableFeasts d.year).palmSunday
      = addDays (computeEaster d.year) (-7) := by rw [hMF]
  have hAW : (computeMoveableFeasts d.year).ashWednesday
      = addDays (computeEaster d.year) (-46) := by rw [hMF]
  have hSep : (computeMoveableFeasts d.year).septuagesima
      = addDays (computeEaster d.year) (-63) := by rw [hMF]
  have hAsc : (computeMoveableFeasts d.year).ascensionDay
      = addDays (computeEaster d.year) 39 := by rw [hMF]
  have hWhit : (computeMoveableFeasts d.year).whitsunday
      = addDays (computeEaster d.year) 49 := by rw [hMF]
  have hTrin : (computeMoveableFeasts d.year).trinitySunday
      = addDays (computeEaster d.year) 56 := by rw [hMF]
  have hAdv : (computeMoveableFeasts d.year).adventSunday
      = computeAdventSunday d.year := by rw [hMF]
  have hEpi : (computeMoveableFeasts d.year).epiphany = (⟨d.year, 0, 6⟩ : Date) := by
    rw [hMF]
  -- ordinal windows
  obtain ⟨hrdE, hEolo, hEohi, hEv, hEyy⟩ := easterRd_bounds d.year hy
  obtain ⟨hrdA, hA1, hA2, hAv, hAyy⟩ := adventRd_bounds d.year hy
  obtain ⟨ho1, ho2⟩ := ordinalInYear_bounds d hv
  have hlb : leapBump d.year ≤ 1 := by unfold leapBump; split <;> omega
  -- interval characterisations of the eleven cascade conditions
  have i1 := season_cond1 d hy
  have i2 := season_cond2 d hy
  have i3 := season_cond3 d hy
  have i4 := season_cond4 d hy
  have i5 := season_cond5 d hy
  have i6 := season_cond6 d hy
  have i7 := season_cond7 d hy
  have i8 := season_cond8 d hy
  have i9 := season_cond9 d hy
  have i10 := season_cond10 d hy
  have i11 := season_cond11 d hy
  clear hMF hv hrdE hrdA hEv hAv hEyy hAyy
  -- no two distinct seasons both match
  have disj : ∀ s1 s2 : LiturgicalSeason,
      seasonMatch d (computeMoveableFeasts d.year) s1 = true →
      seasonMatch d (computeMoveableFeasts d.year) s2 = true → s1 = s2 := by
    intro s1 s2 h1 h2
    cases s1 <;> cases s2 <;>
      first
        | rfl
        | (exfalso
           simp only [seasonMatch, hED, hPS, hAW, hSep, hAsc, hWhit, hTrin, hAdv, hEpi,
             Bool.or_eq_true] at h1 h2
           simp only [i1, i2, i3, i4, i5, i6, i7, i8, i9, i10, i11] at h1 h2
           omega)
  -- the cascade succeeds on some season (coverage of the whole year)
  have key : ∃ s0, determineSeasonOpt d (computeMoveableFeasts d.year) = some s0 := by
    by_cases c1 : ((ordinalInYear (computeEaster d.year) : Int) - 7 ≤ (ordinalInYear d : Int) ∧ (ordinalInYear d : Int) ≤ (ordinalInYear (computeEaster d.year) : Int) - 1)
    · refine ⟨LiturgicalSeason.holyWeek, ?_⟩
      simp only [determineSeasonOpt, hED, hPS, hAW, hSep, hAsc, hWhit, hTrin, hAdv,
        hEpi]
      rw [if_pos (i1.mpr c1)]
    by_cases c2 : ((ordinalInYear (computeEaster d.year) : Int) - 46 ≤ (ordinalInYear d : Int) ∧ (ordinalInYear d : Int) ≤ (ordinalInYear (computeEaster d.year) : Int) - 8)
    · refine ⟨LiturgicalSeason.lent, ?_⟩
      simp only [determineSeasonOpt, hED, hPS, hAW, hSep, hAsc, hWhit, hTrin, hAdv,
        hEpi]
      rw [if_neg (fun hh => c1 (i1.mp hh)),
          if_pos (i2.mpr c2)]
    by_cases c3 : ((ordinalInYear (computeEaster d.year) : Int) - 63 ≤ (ordinalInYear d : Int) ∧ (ordinalInYear d : Int) ≤ (ordinalInYear (computeEaster d.year) : Int) - 47)
    · refine ⟨LiturgicalSeason.preLent, ?_⟩
      simp only [determineSeasonOpt, hED, hPS, hAW, hSep, hAsc, hWhit, hTrin, hAdv,
        hEpi]
      rw [if_neg (fun hh => c1 (i1.mp hh)),
          if_neg (fun hh => c2 (i2.mp hh)),
          if_pos (i3.mpr c3)]
    by_cases c4 : ((ordinalInYear (computeEaster d.year) : Int) ≤ (ordinalInYear d : Int) ∧ (ordinalInYear d : Int) ≤ (ordinalInYear (computeEaster d.year) : Int) + 38)
    · refine ⟨LiturgicalSeason.easter, ?_⟩
      simp only [determineSeasonOpt, hED, hPS, hAW, hSep, hAsc, hWhit, hTrin, hAdv,
        hEpi]
      rw [if_neg (fun hh => c1 (i1.mp hh)),
          if_neg (fun hh => c2 (i2.mp hh)),
          if_neg (fun hh => c3 (i3.mp hh)),
          if_pos (i4.mpr c4)]
    by_cases c5 : ((ordinalInYear (computeEaster d.year) : Int) + 39 ≤ (ordinalInYear d : Int) ∧ (ordinalInYear d : Int) ≤ (ordinalInYear (computeEaster d.year) : Int) + 48)
    · refine ⟨LiturgicalSeason.ascension, ?_⟩
      simp only [determineSeasonOpt, hED, hPS, hAW, hSep, hAsc, hWhit, hTrin, hAdv,
        hEpi]
      rw [if_neg (fun hh => c1 (i1.mp hh)),
          if_neg (fun hh => c2 (i2.mp hh)),
          if_neg (fun hh => c3 (i3.mp hh)),
          if_neg (fun hh => c4 (i4.mp hh)),
          if_pos (i5.mpr c5)]
    by_cases c6 : ((ordinalInYear (computeEaster d.year) : Int) + 49 ≤ (ordinalInYear d : Int) ∧ (ordinalInYear d : Int) ≤ (ordinalInYear (computeEaster d.year) : Int) + 55)
    · refine ⟨LiturgicalSeason.whitsun, ?_⟩
      simp only [determineSeasonOpt, hED, hPS, hAW, hSep, hAsc, hWhit, hTrin, hAdv,
        hEpi]
      rw [if_neg (fun hh => c1 (i1.mp hh)),
          if_neg (fun hh => c2 (i2.mp hh)),
          if_neg (fun hh => c3 (i3.mp hh)),
          if_neg (fun hh => c4 (i4.mp hh)),
          if_neg (fun hh => c5 (i5.mp hh)),
          if_pos (i6.mpr c6)]
    by_cases c7 : ((ordinalInYear (computeEaster d.year) : Int) + 56 ≤ (ordinalInYear d : Int) ∧ (ordinalInYear d : Int) ≤ (ordinalInYear (computeAdventSunday d.year) : Int) - 1)
    · refine ⟨LiturgicalSeason.trinity, ?_⟩
      simp only [determineSeasonOpt, hED, hPS, hAW, hSep, hAsc, hWhit, hTrin, hAdv,
        hEpi]
      rw [if_neg (fun hh => c1 (i1.mp hh)),
          if_neg (fun hh => c2 (i2.mp hh)),
          if_neg (fun hh => c3 (i3.mp hh)),
          if_neg (fun hh => c4 (i4.mp hh)),
          if_neg (fun hh => c5 (i5.mp hh)),
          if_neg (fun hh => c6 (i6.mp hh)),
          if_pos (i7.mpr c7)]
    by_cases c8 : ((ordinalInYear (computeAdventSunday d.year) : Int) ≤ (ordinalInYear d : Int) ∧ (ordinalInYear d : Int) ≤ 358 + (leapBump d.year : Int))
    · refine ⟨LiturgicalSeason.advent, ?_⟩
      simp only [determineSeasonOpt, hED, hPS, hAW, hSep, hAsc, hWhit, hTrin, hAdv,
        hEpi]
      rw [if_neg (fun hh => c1 (i1.mp hh)),
          if_neg (fun hh => c2 (i2.mp hh)),
          if_neg (fun hh => c3 (i3.mp hh)),
          if_neg (fun hh => c4 (i4.mp hh)),
          if_neg (fun hh => c5 (i5.mp hh)),
          if_neg (fun hh => c6 (i6.mp hh)),
          if_neg (fun hh => c7 (i7.mp hh)),
          if_pos (i8.mpr c8)]
    by_cases c9 : (359 + (leapBump d.year : Int) ≤ (ordinalInYear d : Int) ∧ (ordinalInYear d : Int) ≤ 365 + (leapBump d.year : Int))
    · refine ⟨LiturgicalSeason.christmas, ?_⟩
      simp only [determineSeasonOpt, hED, hPS, hAW, hSep, hAsc, hWhit, hTrin, hAdv,
        hEpi]
      rw [if_neg (fun hh => c1 (i1.mp hh)),
          if_neg (fun hh => c2 (i2.mp hh)),
          if_neg (fun hh => c3 (i3.mp hh)),
          if_neg (fun hh => c4 (i4.mp hh)),
          if_neg (fun hh => c5 (i5.mp hh)),
          if_neg (fun hh => c6 (i6.mp hh)),
          if_neg (fun hh => c7 (i7.mp hh)),
          if_neg (fun hh => c8 (i8.mp hh)),
          if_pos (i9.mpr c9)]
    by_cases c10 : ((1 : Int) ≤ (ordinalInYear d : Int) ∧ (ordinalInYear d : Int) ≤ 5)
    · refine ⟨LiturgicalSeason.christmas, ?_⟩
      simp only [determineSeasonOpt, hED, hPS, hAW, hSep, hAsc, hWhit, hTrin, hAdv,
        hEpi]
      rw [if_neg (fun hh => c1 (i1.mp hh)),
          if_neg (fun hh => c2 (i2.mp hh)),
          if_neg (fun hh => c3 (i3.mp hh)),
          if_neg (fun hh => c4 (i4.mp hh)),
          if_neg (fun hh => c5 (i5.mp hh)),
          if_neg (fun hh => c6 (i6.mp hh)),
          if_neg (fun hh => c7 (i7.mp hh)),
          if_neg (fun hh => c8 (i8.mp hh)),
          if_neg (fun hh => c9 (i9.mp hh)),
          if_pos (i10.mpr c10)]
    by_cases c11 : ((6 : Int) ≤ (ordinalInYear d : Int) ∧ (ordinalInYear d : Int) ≤ (ordinalInYear (computeEaster d.year) : Int) - 64)
    · refine ⟨LiturgicalSeason.epiphany, ?_⟩
      simp only [determineSeasonOpt, hED, hPS, hAW, hSep, hAsc, hWhit, hTrin, hAdv,
        hEpi]
      rw [if_neg (fun hh => c1 (i1.mp hh)),
          if_neg (fun hh => c2 (i2.mp hh)),
          if_neg (fun hh => c3 (i3.mp hh)),
          if_neg (fun hh => c4 (i4.mp hh)),
          if_neg (fun hh => c5 (i5.mp hh)),
          if_neg (fun hh => c6 (i6.mp hh)),
          if_neg (fun hh => c7 (i7.mp hh)),
          if_neg (fun hh => c8 (i8.mp hh)),
          if_neg (fun hh => c9 (i9.mp hh)),
          if_neg (fun hh => c10 (i10.mp hh)),
          if_pos (i11.mpr c11)]
    exfalso
    omega
  obtain ⟨s0, hO⟩ := key
  obtain ⟨hD, hM⟩ := determineSeasonOpt_some_spec d (computeMoveableFeasts d.year) s0 hO
  refine ⟨⟨s0, hM, fun s1 hs1 => disj s1 s0 hs1 hM⟩, ?_, ?_⟩
  · rw [hD]; exact hM
  · rw [hD]; exact hO


/-- C2 witness: evaluated at 2026-06-15 (a valid date): the cascade picks a season,
exactly one range test holds, and the fallback is not taken. -/
theorem determineSeason_partition_witness :
    Valid ⟨2026, 5, 15⟩ ∧ 1 ≤ (Date.mk 2026 5 15).year ∧
    determineSeasonOpt ⟨2026, 5, 15⟩ (computeMoveableFeasts (Date.mk 2026 5 15).year)
      = some (determineSeason ⟨2026, 5, 15⟩
          (computeMoveableFeasts (Date.mk 2026 5 15).year)) :=
  ⟨by decide, by decide,
    (determineSeason_partition ⟨2026, 5, 15⟩ (by decide) (by decide)).2.2⟩

end TwiceDaily
